import Mathlib

/-!
Verification of the filter standardization engine
(`src/lib/api/dsl/transform/standardize.js` of the Kuzzle repository).

JavaScript values are embedded shallowly as the inductive type `JVal`
(JS numbers are modelled as rationals: the filters handled by the DSL carry
only decimal literals, and the standardizer performs no arithmetic on them,
only comparisons, so `ℚ` is exact for every reachable value; `NaN` and the
infinities are unreachable from DSL input since JSON cannot encode them).
Promise-returning validators become functions into `Except Err JVal`:
a resolved promise is `.ok`, a rejected one `.error`.  The only
non-termination in the source — the reflective dispatch
`this['standardize'](filters)` calling itself on the same argument — is
modelled with an explicit fuel parameter on `standardize`; fuel is consumed
exactly at each `standardize` entry, and exhaustion (`.stackOverflow`)
corresponds to the JS stack overflow of that infinite recursion.
-/

namespace Kuzzle

/-- Shallow embedding of a JavaScript (JSON-like) value. -/
inductive JVal : Type where
  | undefined : JVal
  | null : JVal
  | bool : Bool → JVal
  | num : ℚ → JVal
  | str : String → JVal
  | arr : List JVal → JVal
  | obj : List (String × JVal) → JVal
deriving Repr

/-- JS truthiness (`Boolean(v)`); `NaN`/`-0` do not arise with `ℚ` numbers. -/
def truthy : JVal → Bool
  | .undefined => false
  | .null => false
  | .bool b => b
  | .num q => decide (q ≠ 0)
  | .str s => decide (s.length ≠ 0)
  | .arr _ => true
  | .obj _ => true

/-- JS `typeof v`. -/
def jtypeof : JVal → String
  | .undefined => "undefined"
  | .null => "object"
  | .bool _ => "boolean"
  | .num _ => "number"
  | .str _ => "string"
  | .arr _ => "object"
  | .obj _ => "object"

/-- First binding of key `k` in an association list, as JS property lookup. -/
def lookupKV : List (String × JVal) → String → JVal
  | [], _ => .undefined
  | (k', v) :: rest, k => if k' == k then v else lookupKV rest k

/-- Decimal index keys of JS arrays/strings (`a["2"]`). -/
def decIndexNat? (s : String) : Option Nat :=
  if !s.data.isEmpty && s.data.all Char.isDigit then
    some (Nat.ofDigits 10 ((s.data.map (fun c => c.toNat - 48)).reverse))
  else none

/-- JS property read `o[k]`.  Arrays and strings expose their elements under
decimal-index keys; every other primitive has no own properties that the
standardizer reads. -/
def jlookup : JVal → String → JVal
  | .obj kvs, k => lookupKV kvs k
  | .arr l, k =>
      match decIndexNat? k with
      | some i => l.getD i .undefined
      | none => .undefined
  | .str s, k =>
      match decIndexNat? k with
      | some i => if h : i < s.length then .str (String.mk [s.data.get ⟨i, h⟩]) else .undefined
      | none => .undefined
  | _, _ => .undefined

/-- JS `Object.keys(v)` for the values this program feeds it.  Note: JS
reorders integer-like keys of plain objects ahead of the rest; no value
reaching `Object.keys` in this program carries integer-like object keys, so
plain insertion order is used for `obj`. -/
def jkeys : JVal → List String
  | .obj kvs => kvs.map Prod.fst
  | .arr l => (List.range l.length).map toString
  | .str s => (List.range s.length).map toString
  | _ => []

/-- The values paired with `jkeys`, used by `_standardizeFilterArray`'s
element scan (`filter[operand][v]` for `v` in `Object.keys(filter[operand])`). -/
def jvalues : JVal → List JVal
  | .obj kvs => kvs.map Prod.snd
  | .arr l => l
  | .str s => s.data.map (fun c => .str (String.mk [c]))
  | _ => []

/-- JS `a.concat(x)` on an array `a`: an array argument is spread, anything
else is appended as a single element. -/
def jsConcat (a : List JVal) (v : JVal) : List JVal :=
  match v with
  | .arr l => a ++ l
  | x => a ++ [x]

/-- JS property write `o[k] = v`: replaces the binding in place when the key
exists, appends it otherwise.  (Writes to non-objects do not occur on the
reachable paths of the standardizer.) -/
def setKV : List (String × JVal) → String → JVal → List (String × JVal)
  | [], k, v => [(k, v)]
  | (k', v') :: rest, k, v =>
      if k' == k then (k, v) :: rest else (k', v') :: setKV rest k v

def jset (o : JVal) (k : String) (v : JVal) : JVal :=
  match o with
  | .obj kvs => .obj (setKV kvs k v)
  | x => x

/-- JS `ToInt32`, restricted to the values that can appear as a `_isLeaf`
flag in this program (`undefined`, booleans, and the 0/1 numbers produced by
`&=`).  Truncation toward zero followed by a signed 32-bit wrap. -/
def toI32 : JVal → Int
  | .bool b => if b then 1 else 0
  | .num q => Int.bmod (Int.tdiv q.num (Int.ofNat q.den)) (2 ^ 32)
  | _ => 0

/-- JS `a & b` (the `&=` on `result._isLeaf`): `ToInt32` both sides, bitwise
AND on the unsigned 32-bit representatives, wrap back to signed. -/
def jsBitAnd (a b : JVal) : JVal :=
  let ua : Nat := ((toI32 a) % (2 ^ 32)).toNat
  let ub : Nat := ((toI32 b) % (2 ^ 32)).toNat
  .num ((Int.bmod (Int.ofNat (Nat.land ua ub)) (2 ^ 32) : Int) : ℚ)

/-- Outcomes of a rejected promise / thrown exception in the standardizer.
`badRequest` is the `BadRequestError` of kuzzle-common-objects; `typeError`
models a raw JS `TypeError` escaping (its message text is informal);
`stackOverflow` models the `RangeError` of unbounded recursion;
`hostBehavior k` abstracts the result of reflectively dispatching to an
inherited `Object.prototype` member named `k`, whose host-defined return
value lies outside the DSL value model (no theorem depends on it). -/
inductive Err : Type where
  | badRequest : String → Err
  | typeError : String → Err
  | stackOverflow : Err
  | hostBehavior : String → Err
deriving DecidableEq, Repr

/-- `mustBeNonEmptyObject(filter, keyword)`: rejects falsy values,
non-objects, arrays, and empty objects; resolves to the key list. -/
def mustBeNonEmptyObject (v : JVal) (keyword : String) : Except Err (List String) :=
  match v with
  | .obj kvs =>
      if kvs.isEmpty then
        .error (.badRequest ("\"" ++ keyword ++ "\" must be a non-empty object"))
      else .ok (kvs.map Prod.fst)
  | _ => .error (.badRequest ("\"" ++ keyword ++ "\" must be a non-empty object"))

/-- `onlyOneFieldAttribute(fieldsList, keyword)`. -/
def onlyOneFieldAttribute (fieldsList : List String) (keyword : String) :
    Except Err (List String) :=
  if fieldsList.length > 1 then
    .error (.badRequest ("\"" ++ keyword ++ "\" can contain only one attribute"))
  else .ok fieldsList

/-- `requireAttribute(filter, keyword, attribute)`: the attribute must be
truthy. -/
def requireAttribute (v : JVal) (keyword attrName : String) : Except Err Unit :=
  if truthy (jlookup v attrName) then .ok ()
  else .error (.badRequest ("\"" ++ keyword ++ "\" requires the following attribute: " ++ attrName))

/-- `mustBeString(filter, keyword, field)`. -/
def mustBeString (v : JVal) (keyword field : String) : Except Err Unit :=
  if jtypeof (jlookup v field) == "string" then .ok ()
  else .error (.badRequest ("Attribute \"" ++ field ++ "\" in \"" ++ keyword ++ "\" must be a string"))

/-- `mustBeNonEmptyArray(filter, keyword, field)`.  The emptiness message
reproduces the double space (`in  "`) present in the source. -/
def mustBeNonEmptyArray (v : JVal) (keyword field : String) : Except Err Unit :=
  match jlookup v field with
  | .arr l =>
      if l.isEmpty then
        .error (.badRequest ("Attribute \"" ++ field ++ "\" in  \"" ++ keyword ++ "\" cannot be empty"))
      else .ok ()
  | _ => .error (.badRequest ("Attribute \"" ++ field ++ "\" in \"" ++ keyword ++ "\" must be an array"))

/-! ## External collaborators

The four geo helpers (`convertGeopoint`, `convertDistance`,
`geoLocationToCamelCase`, `fieldsExist`) and the `ngeohash` decoder are
required from outside `src/lib/api/dsl/transform/standardize.js` and their
code is not part of the supplied sources, so they are modelled from the
spec's collaborator contracts (§6).  No claim theorem depends on their
internal behavior beyond what the spec states. -/

/-- Modelled from the spec: `normalizeKeyCasing(object) -> object`
"tolerates alternate key capitalizations for bounding-box corner names";
snake_cased corner names are rewritten to the canonical camelCase ones,
everything else is left untouched. -/
def geoCornerKey (k : String) : String :=
  if k == "top_left" then "topLeft"
  else if k == "bottom_right" then "bottomRight"
  else k

def geoLocationToCamelCase (v : JVal) : JVal :=
  match v with
  | .obj kvs => .obj (kvs.map (fun p => (geoCornerKey p.1, p.2)))
  | x => x

/-- Modelled from the spec: the "multi-field-existence checker"
collaborator; per its call sites, `fieldsExist(obj, fields, type, regex?)`
holds when every listed field is present with the given `typeof` (and, for
strings, matches the optional pattern, supplied here as a decidable String
predicate). -/
def fieldsExist (v : JVal) (fields : List String) (ty : String)
    (pattern : Option (String → Bool)) : Bool :=
  fields.all (fun f =>
    let x := jlookup v f
    jtypeof x == ty &&
      (match pattern, x with
       | some p, .str s => p s
       | _, _ => true))

/-- Character-level model of the source regex
`/^([-+]?\d*\.?\d+),\s*([-+]?\d*\.?\d+)$/` together with the
`Number.parseFloat` of each captured group: parses a decimal number
(optional sign, optional integer part, optional dot, mandatory digits after
the dot when it is present). -/
def parseDecGroup (cs : List Char) : Option (ℚ × List Char) :=
  let sign : ℚ × List Char :=
    match cs with
    | '-' :: rest => (-1, rest)
    | '+' :: rest => (1, rest)
    | rest => (1, rest)
  let ipart := sign.2.takeWhile Char.isDigit
  let rest1 := sign.2.dropWhile Char.isDigit
  match rest1 with
  | '.' :: rest2 =>
      let fpart := rest2.takeWhile Char.isDigit
      let rest3 := rest2.dropWhile Char.isDigit
      if fpart.isEmpty then
        -- `\.?` backtracks to the empty match; digits before the dot must
        -- then satisfy `\d+`, and the dot stays in the stream.
        if ipart.isEmpty then none
        else some ((sign.1 * (Nat.ofDigits 10 (ipart.map (fun c => c.toNat - 48)).reverse : ℕ) : ℚ), rest1)
      else
        let ival : ℕ := Nat.ofDigits 10 (ipart.map (fun c => c.toNat - 48)).reverse
        let fval : ℕ := Nat.ofDigits 10 (fpart.map (fun c => c.toNat - 48)).reverse
        some (sign.1 * ((ival : ℚ) + (fval : ℚ) / ((10 : ℚ) ^ fpart.length)), rest3)
  | _ =>
      if ipart.isEmpty then none
      else some ((sign.1 * (Nat.ofDigits 10 (ipart.map (fun c => c.toNat - 48)).reverse : ℕ) : ℚ), rest1)

/-- Full-string match of `RegexStringBoundingBox`, returning the two parsed
coordinates. -/
def parseStringBoundingBox (s : String) : Option (ℚ × ℚ) :=
  match parseDecGroup s.data with
  | none => none
  | some (a, rest) =>
      match rest with
      | ',' :: rest2 =>
          match parseDecGroup (rest2.dropWhile (fun c => c == ' ' || c == '\t' || c == '\n' || c == '\r')) with
          | some (b, []) => some (a, b)
          | _ => none
      | _ => none

/-- Boolean test for `RegexStringBoundingBox`. -/
def matchesStringBoundingBox (s : String) : Bool :=
  (parseStringBoundingBox s).isSome

/-- Boolean test for `RegexGeohash` = `/^[0-9a-z]{4,}$/`. -/
def matchesGeohash (s : String) : Bool :=
  decide (4 ≤ s.length) && s.data.all (fun c => c.isDigit || ('a' ≤ c && c ≤ 'z'))

/-- Modelled from the spec: `geohashDecode(text) -> {latitude, longitude}`.
The decoder belongs to the external `ngeohash` library; its numeric output
is not modelled (no claim depends on it), only the shape of its result. -/
def geohashDecode (_s : String) : ℚ × ℚ := (1, 1)

/-- Modelled from the spec: `pointFromAny(value) -> {lat, lon} | null`
(`convertGeopoint`).  The spec says it "accepts the same multi-format point
encodings as bounding-box corners"; the object, array and string-pair
encodings are reproduced here (no claim depends on which encodings
succeed). -/
def convertGeopoint (v : JVal) : Option (ℚ × ℚ) :=
  match v with
  | .obj kvs =>
      match lookupKV kvs "lat", lookupKV kvs "lon" with
      | .num la, .num lo => some (la, lo)
      | _, _ => none
  | .arr [.num la, .num lo] => some (la, lo)
  | .str s =>
      match parseStringBoundingBox s with
      | some p => some p
      | none => if matchesGeohash s then some (geohashDecode s) else none
  | _ => none

/-- Modelled from the spec: `distanceFromString(text) -> numberInMeters |
fails(InvalidDistanceFormat)` (`convertDistance`); a plain decimal string is
read as meters, anything else fails (unit suffix handling is external and
not load-bearing for any claim). -/
def convertDistance (s : String) : Except Err ℚ :=
  match parseDecGroup s.data with
  | some (q, []) => .ok q
  | _ => .error (.badRequest ("unable to parse distance value \"" ++ s ++ "\""))

/-- Modelled from the spec: validity of `new RegExp(value, flags)` is decided
by the external JS regular-expression engine ("attempt to compile `value`
with the supplied flags"); the engine itself is outside this core, so
compilation is modelled as always succeeding.  No claim depends on which
patterns compile. -/
def jsRegExpCompiles (_value _flags : JVal) : Bool := true

/-! ## Leaf predicate validators (`Standardizer` methods) -/

/-- `exists(filter, name)` — also the body of `missing` via the `name`
parameter.  Returns the input filter unchanged. -/
def dslExists (filter : JVal) (name : String) : Except Err JVal := do
  let fields ← mustBeNonEmptyObject (jlookup filter name) name
  let _ ← onlyOneFieldAttribute fields name
  let _ ← mustBeString (jlookup filter name) name "field"
  match jlookup (jlookup filter name) "field" with
  | .str s =>
      if s.length == 0 then
        .error (.badRequest "exists: cannot test empty field name")
      else .ok filter
  | _ => .ok filter

/-- `missing(filter)`: validates like `exists`, then rewrites to
`{not: {exists: {field}}}`. -/
def dslMissing (filter : JVal) : Except Err JVal := do
  let f ← dslExists filter "missing"
  .ok (.obj [("not", .obj [("exists", .obj [("field", jlookup (jlookup f "missing") "field")])])])

/-- `ids(filter)`: rewrites to an `or` of `{equals: {_id: v}}` leaves. -/
def dslIds (filter : JVal) : Except Err JVal := do
  let fields ← mustBeNonEmptyObject (jlookup filter "ids") "ids"
  let _ ← onlyOneFieldAttribute fields "ids"
  let _ ← requireAttribute (jlookup filter "ids") "ids" "values"
  let _ ← mustBeNonEmptyArray (jlookup filter "ids") "ids" "values"
  match jlookup (jlookup filter "ids") "values" with
  | .arr vs =>
      if vs.any (fun v => !(jtypeof v == "string")) then
        .error (.badRequest "Array \"values\" in keyword \"ids\" can only contain strings")
      else
        .ok (.obj [("or", .arr (vs.map (fun v => .obj [("equals", .obj [("_id", v)])]))),
                   ("_isLeaf", .bool true)])
  | _ => .error (.badRequest "Attribute \"values\" in \"ids\" must be an array")

/-- `equals(filter)`: passthrough after shape checks. -/
def dslEquals (filter : JVal) : Except Err JVal := do
  let fields ← mustBeNonEmptyObject (jlookup filter "equals") "equals"
  let fields ← onlyOneFieldAttribute fields "equals"
  let _ ← mustBeString (jlookup filter "equals") "equals" (fields.headD "")
  .ok filter

/-- `in(filter)`: rewrites to an `or` of `{equals: {field: v}}` leaves. -/
def dslIn (filter : JVal) : Except Err JVal := do
  let fields ← mustBeNonEmptyObject (jlookup filter "in") "in"
  let fields ← onlyOneFieldAttribute fields "in"
  let inValue := fields.headD ""
  let _ ← mustBeNonEmptyArray (jlookup filter "in") "in" inValue
  match jlookup (jlookup filter "in") inValue with
  | .arr vs =>
      if vs.any (fun v => !(jtypeof v == "string")) then
        .error (.badRequest ("Array \"" ++ inValue ++ "\" in keyword \"in\" can only contain strings"))
      else
        .ok (.obj [("or", .arr (vs.map (fun v => .obj [("equals", .obj [(inValue, v)])]))),
                   ("_isLeaf", .bool true)])
  | _ => .error (.badRequest ("Attribute \"" ++ inValue ++ "\" in \"in\" must be an array"))

/-- JS `s.startsWith(p)` (defined on character lists so that it evaluates
inside the kernel). -/
def strStartsWith (s p : String) : Bool :=
  s.data.take p.data.length == p.data

/-- The duplicate-upper-bound error of `range`. -/
def upperBoundErr (rangeField : String) : Err :=
  .badRequest ("\"range." ++ rangeField ++ ":\" only 1 upper boundary allowed")

/-- The duplicate-lower-bound error of `range`. -/
def lowerBoundErr (rangeField : String) : Err :=
  .badRequest ("\"range." ++ rangeField ++ ":\" only 1 lower boundary allowed")

/-- The bound-ordering error of `range`. -/
def boundOrderErr (rangeField : String) : Err :=
  .badRequest ("\"range." ++ rangeField ++ ":\" lower boundary must be strictly inferior to the upper one")

/-- The `if (rangeType.startsWith('lt'))` half of the `forEach` body of
`range`: resolve the upper bound, or record a duplicate-bound error when
`high` was already moved off its `Infinity` sentinel (`none`). -/
def rangeScanUpper (rangeField : String) (vals : JVal) (k : String)
    (st : Option ℚ × Option ℚ × Option Err) : Option ℚ × Option ℚ × Option Err :=
  if strStartsWith k "lt" then
    match st.1 with
    | some _ => (st.1, st.2.1, some (upperBoundErr rangeField))
    | none =>
        match jlookup vals k with
        | .num q => (some q, st.2.1, st.2.2)
        | _ => st
  else st

/-- The `if (rangeType.startsWith('gt'))` half of the `forEach` body of
`range`. -/
def rangeScanLower (rangeField : String) (vals : JVal) (k : String)
    (st : Option ℚ × Option ℚ × Option Err) : Option ℚ × Option ℚ × Option Err :=
  if strStartsWith k "gt" then
    match st.2.1 with
    | some _ => (st.1, st.2.1, some (lowerBoundErr rangeField))
    | none =>
        match jlookup vals k with
        | .num q => (st.1, some q, st.2.2)
        | _ => st
  else st

/-- State of the `rangeValues.forEach` loop of `range`: resolved bounds
(`none` plays the role of the `±Infinity` sentinels, which no validated
filter value can collide with since JSON numbers are finite) and the
last duplicate-bound error assigned. -/
def rangeScan (rangeField : String) (vals : JVal) :
    List String → Option ℚ × Option ℚ × Option Err → Option ℚ × Option ℚ × Option Err
  | [], st => st
  | k :: rest, st =>
      rangeScan rangeField vals rest
        (rangeScanLower rangeField vals k (rangeScanUpper rangeField vals k st))

/-- The tail of `range` after the `forEach` scan: surface a recorded
duplicate-bound error, then test the bound ordering.  `high <= low` is
evaluated with `high` defaulting to `+Infinity` and `low` to `-Infinity`,
so the test can only succeed when both bounds are present. -/
def rangeDecide (rangeField : String) (filter : JVal)
    (st : Option ℚ × Option ℚ × Option Err) : Except Err JVal :=
  match st.2.2 with
  | some e => .error e
  | none =>
      match st.1, st.2.1 with
      | some high, some low =>
          if high ≤ low then
            .error (boundOrderErr rangeField)
          else .ok filter
      | _, _ => .ok filter

/-- `range(filter)`: passthrough after bound validation. -/
def dslRange (filter : JVal) : Except Err JVal := do
  let fields ← mustBeNonEmptyObject (jlookup filter "range") "range"
  let fields ← onlyOneFieldAttribute fields "range"
  let rangeField := fields.headD ""
  let rangeValues ← mustBeNonEmptyObject (jlookup (jlookup filter "range") rangeField)
      ("range." ++ rangeField)
  if rangeValues.any (fun v => !(["gt", "lt", "gte", "lte"].contains v)) then
    .error (.badRequest ("\"range." ++ rangeField ++ "\" accepts only the following attributes : gt, gte, lt, lte"))
  else
    match rangeValues.find? (fun v =>
        !(jtypeof (jlookup (jlookup (jlookup filter "range") rangeField) v) == "number")) with
    | some k =>
        .error (.badRequest ("\"range." ++ rangeField ++ "." ++ k ++ "\" must be a number"))
    | none =>
        rangeDecide rangeField filter
          (rangeScan rangeField (jlookup (jlookup filter "range") rangeField)
            rangeValues (none, none, none))

/-- The optional `flags` string check of `regexp`. -/
def regexpFlagsCheck (rv : JVal) : Except Err Unit :=
  if truthy (jlookup rv "flags") then mustBeString rv "regexp" "flags"
  else .ok ()

/-- `regexp(filter)`: passthrough after shape checks and a compilation
attempt. -/
def dslRegexp (filter : JVal) : Except Err JVal := do
  let fields ← mustBeNonEmptyObject (jlookup filter "regexp") "regexp"
  let fields ← onlyOneFieldAttribute fields "regexp"
  let regexpField := fields.headD ""
  let regexpValues ← mustBeNonEmptyObject (jlookup (jlookup filter "regexp") regexpField)
      ("regexp." ++ regexpField)
  if regexpValues.any (fun v => !(["flags", "value"].contains v)) then
    .error (.badRequest "Keyword \"regexp\" can only contain the following attributes: flags, value")
  else do
    let _ ← requireAttribute (jlookup (jlookup filter "regexp") regexpField) "regexp" "value"
    let _ ← regexpFlagsCheck (jlookup (jlookup filter "regexp") regexpField)
    if jsRegExpCompiles (jlookup (jlookup (jlookup filter "regexp") regexpField) "value")
        (jlookup (jlookup (jlookup filter "regexp") regexpField) "flags") then
      .ok filter
    else
      .error (.badRequest "Invalid regular expression")

/-! ## Geo predicate validators -/

/-- The five accepted bounding-box encodings, tried in source order; the
result is the `standardized` object of `geoBoundingBox` (empty when no
encoding matched). -/
def normalizeBBox (bBox : JVal) : JVal :=
  if fieldsExist bBox ["top", "left", "bottom", "right"] "number" none then
    .obj [("top", jlookup bBox "top"), ("left", jlookup bBox "left"),
          ("bottom", jlookup bBox "bottom"), ("right", jlookup bBox "right")]
  else if fieldsExist bBox ["bottomRight", "topLeft"] "object" none &&
      fieldsExist (jlookup bBox "bottomRight") ["lat", "lon"] "number" none &&
      fieldsExist (jlookup bBox "topLeft") ["lat", "lon"] "number" none then
    .obj [("top", jlookup (jlookup bBox "topLeft") "lat"),
          ("left", jlookup (jlookup bBox "topLeft") "lon"),
          ("bottom", jlookup (jlookup bBox "bottomRight") "lat"),
          ("right", jlookup (jlookup bBox "bottomRight") "lon")]
  else
    match jlookup bBox "bottomRight", jlookup bBox "topLeft" with
    | .arr [.num brLat, .num brLon], .arr [.num tlLat, .num tlLon] =>
        .obj [("top", .num tlLat), ("left", .num tlLon),
              ("bottom", .num brLat), ("right", .num brLon)]
    | br, tl =>
        match br, tl with
        | .str brs, .str tls =>
            if matchesStringBoundingBox brs && matchesStringBoundingBox tls then
              match parseStringBoundingBox tls, parseStringBoundingBox brs with
              | some (tlat, tlon), some (blat, blon) =>
                  .obj [("top", .num tlat), ("left", .num tlon),
                        ("bottom", .num blat), ("right", .num blon)]
              | _, _ => .obj []
            else if matchesGeohash brs && matchesGeohash tls then
              .obj [("top", .num (geohashDecode tls).1), ("left", .num (geohashDecode tls).2),
                    ("bottom", .num (geohashDecode brs).1), ("right", .num (geohashDecode brs).2)]
            else .obj []
        | _, _ => .obj []

/-- `geoBoundingBox(filter)`.  Success is decided by the truthiness of the
computed `top` attribute (`if (!standardized.top)`), not by whether an
encoding matched. -/
def dslGeoBoundingBox (filter : JVal) : Except Err JVal := do
  let fields ← mustBeNonEmptyObject (jlookup filter "geoBoundingBox") "geoBoundingBox"
  let fields ← onlyOneFieldAttribute fields "geoBoundingBox"
  let fld := fields.headD ""
  let bBox := geoLocationToCamelCase (jlookup (jlookup filter "geoBoundingBox") fld)
  let standardized := normalizeBBox bBox
  if !truthy (jlookup standardized "top") then
    .error (.badRequest ("Unrecognized geo-point format in \"geoBoundingBox." ++ fld))
  else
    .ok (.obj [("geospatial", .obj [("geoBoundingBox", .obj [(fld, standardized)])])])

/-- `geoDistance(filter)`. -/
def dslGeoDistance (filter : JVal) : Except Err JVal := do
  let fields ← mustBeNonEmptyObject (jlookup filter "geoDistance") "geoDistance"
  if !(fields.length == 2 && fields.contains "distance") then
    .error (.badRequest "\"geoDistance\" keyword requires a document field and a \"distance\" attribute")
  else do
    let _ ← mustBeString (jlookup filter "geoDistance") "geoDistance" "distance"
    let docField := (fields.find? (fun f => !(f == "distance"))).getD "undefined"
    match convertGeopoint (jlookup (jlookup filter "geoDistance") docField) with
    | none => .error (.badRequest ("geoDistance." ++ docField ++ ": unrecognized point format"))
    | some p =>
        match jlookup (jlookup filter "geoDistance") "distance" with
        | .str ds => do
            let d ← convertDistance ds
            .ok (.obj [("geospatial", .obj [("geoDistance", .obj [(docField,
                .obj [("lat", .num p.1), ("lon", .num p.2), ("distance", .num d)])])])])
        | _ => .error (.badRequest "Attribute \"distance\" in \"geoDistance\" must be a string")

/-- `geoDistanceRange(filter)`. -/
def dslGeoDistanceRange (filter : JVal) : Except Err JVal := do
  let fields ← mustBeNonEmptyObject (jlookup filter "geoDistanceRange") "geoDistanceRange"
  if !(fields.length == 3 && fields.contains "from" && fields.contains "to") then
    .error (.badRequest "\"geoDistanceRange\" keyword requires a document field and the following attributes: \"from\", \"to\"")
  else do
    let docField := (fields.find? (fun f => !(f == "from") && !(f == "to"))).getD "undefined"
    let _ ← mustBeString (jlookup filter "geoDistanceRange") "geoDistanceRange" "from"
    let _ ← mustBeString (jlookup filter "geoDistanceRange") "geoDistanceRange" "to"
    match convertGeopoint (jlookup (jlookup filter "geoDistanceRange") docField) with
    | none => .error (.badRequest ("geoDistanceRange." ++ docField ++ ": unrecognized point format"))
    | some p =>
        match jlookup (jlookup filter "geoDistanceRange") "from",
              jlookup (jlookup filter "geoDistanceRange") "to" with
        | .str fs, .str ts => do
            let fromD ← convertDistance fs
            let toD ← convertDistance ts
            if fromD ≥ toD then
              .error (.badRequest ("geoDistanceRange." ++ docField ++ ": inner radius must be smaller than outer radius"))
            else
              .ok (.obj [("geospatial", .obj [("geoDistanceRange", .obj [(docField,
                  .obj [("lat", .num p.1), ("lon", .num p.2),
                        ("from", .num fromD), ("to", .num toD)])])])])
        | _, _ => .error (.badRequest "Attribute \"from\" in \"geoDistanceRange\" must be a string")

/-- Host `JSON.stringify`, used only inside `geoPolygon`'s point-format error
message; modelled coarsely (no claim inspects this text). -/
def jsonStringify : JVal → String
  | .undefined => "undefined"
  | .null => "null"
  | .bool b => if b then "true" else "false"
  | .num q => toString q.num ++ (if q.den == 1 then "" else "/" ++ toString q.den)
  | .str s => "\"" ++ s ++ "\""
  | .arr _ => "[...]"
  | .obj _ => "{...}"

/-- The conversion loop of `geoPolygon`: each point is converted or the
whole validation rejects. -/
def convertPoints (docField : String) : List JVal → Except Err (List JVal)
  | [] => .ok []
  | p :: rest =>
      match convertGeopoint p with
      | none => .error (.badRequest ("geoPolygon." ++ docField ++ ": unrecognized point format (" ++ jsonStringify p ++ ")"))
      | some q => do
          let tail ← convertPoints docField rest
          .ok (.arr [.num q.1, .num q.2] :: tail)

/-- `geoPolygon(filter)`.  The single-field check is labelled
`geoBoundingBox` in the source's error message; reproduced as-is. -/
def dslGeoPolygon (filter : JVal) : Except Err JVal := do
  let fields ← mustBeNonEmptyObject (jlookup filter "geoPolygon") "geoPolygon"
  let fields ← onlyOneFieldAttribute fields "geoBoundingBox"
  let docField := fields.headD ""
  let _ ← requireAttribute (jlookup (jlookup filter "geoPolygon") docField)
      ("geoPolygon." ++ docField) "points"
  let _ ← mustBeNonEmptyArray (jlookup (jlookup filter "geoPolygon") docField)
      ("geoPolygon." ++ docField) "points"
  match jlookup (jlookup (jlookup filter "geoPolygon") docField) "points" with
  | .arr ps =>
      if ps.length < 3 then
        .error (.badRequest ("\"geoPolygon." ++ docField ++ "\": at least 3 points are required to build a polygon"))
      else do
        let pts ← convertPoints docField ps
        .ok (.obj [("geospatial", .obj [("geoPolygon", .obj [(docField, .arr pts)])])])
  | _ => .error (.badRequest ("Attribute \"points\" in \"geoPolygon." ++ docField ++ "\" must be an array"))

/-! ## Boolean combinators and the flattening algorithm -/

/-- One element of the pre-scan of `_standardizeFilterArray`:
`typeof v !== 'object' || Array.isArray(v) || Object.keys(v).length === 0`.
Short-circuiting makes `null` (whose `typeof` is `'object'`) reach
`Object.keys(null)`, which throws. -/
def elemBadCheck : JVal → Except Err Bool
  | .null => .error (.typeError "Cannot convert undefined or null to object")
  | .obj kvs => .ok kvs.isEmpty
  | .arr _ => .ok true
  | _ => .ok true

/-- `findIndex` over the element scan, propagating a thrown `TypeError`. -/
def findBadElem : List JVal → Except Err Bool
  | [] => .ok false
  | v :: rest => do
      let b ← elemBadCheck v
      if b then .ok true else findBadElem rest

/-- One step of the `Promise.reduce` fold of `_standardizeFilterArray`,
acting on `(result[operand], result._isLeaf)`: a sub-result whose first key
equals the operand is spliced in with `_isLeaf &= sub._isLeaf`; any other
sub-result is pushed, and a nested `and`/`or` of the other kind forces
`_isLeaf = false`. -/
def sfaFoldStep (operand : String) (acc : List JVal × JVal) (sub : JVal) :
    List JVal × JVal :=
  match (jkeys sub).head? with
  | some k =>
      if k == operand then
        (jsConcat acc.1 (jlookup sub operand), jsBitAnd acc.2 (jlookup sub "_isLeaf"))
      else
        (acc.1 ++ [sub], if k == "and" || k == "or" then .bool false else acc.2)
  | none => (acc.1 ++ [sub], acc.2)

/-- Sequential standardization of the children (the promises are created
eagerly by `.map`, but `Promise.reduce` awaits them in order, so the overall
rejection is the first failing child's, in array order). -/
def standardizeAll (std : JVal → Except Err JVal) : List JVal → Except Err (List JVal)
  | [] => .ok []
  | v :: rest => do
      let r ← std v
      let rs ← standardizeAll std rest
      .ok (r :: rs)

/-- `_standardizeFilterArray(filter, operand)`: scan the elements, then fold
the standardized children and unwrap a single accumulated element. -/
def standardizeFilterArray (std : JVal → Except Err JVal) (filter : JVal)
    (operand : String) : Except Err JVal :=
  match jlookup filter operand with
  | .null => .error (.typeError "Cannot convert undefined or null to object")
  | .undefined => .error (.typeError "Cannot convert undefined or null to object")
  | .arr l => do
      let bad ← findBadElem l
      if bad then
        .error (.badRequest ("\"" ++ operand ++ "\" operand can only contain non-empty objects"))
      else do
        let subs ← standardizeAll std l
        let st := subs.foldl (sfaFoldStep operand) ([], .bool true)
        match st.1 with
        | [c] => .ok c
        | _ => .ok (.obj [(operand, .arr st.1), ("_isLeaf", st.2)])
  | other => do
      -- non-array, non-null `filter[operand]`: the key scan may reject, and
      -- otherwise `filter[operand].map` throws.
      let bad ← findBadElem (jvalues other)
      if bad then
        .error (.badRequest ("\"" ++ operand ++ "\" operand can only contain non-empty objects"))
      else .error (.typeError "map is not a function")

/-- `and(filter)` (dispatch never supplies the optional `keyword`, which
therefore always defaults to `'and'`). -/
def dslAnd (std : JVal → Except Err JVal) (filter : JVal) : Except Err JVal := do
  let _ ← mustBeNonEmptyArray filter "and" "and"
  standardizeFilterArray std filter "and"

/-- `or(filter)` (the optional `keyword` always defaults to `'or'`). -/
def dslOr (std : JVal → Except Err JVal) (filter : JVal) : Except Err JVal := do
  let _ ← mustBeNonEmptyArray filter "or" "or"
  standardizeFilterArray std filter "or"

/-- The nested-keyword shape check of `not`: an `and`/`or` beneath it must be
a non-empty array, anything else a non-empty object. -/
def notPrecheck (filter : JVal) (kwd : String) : Except Err Unit :=
  if kwd == "and" || kwd == "or" then
    mustBeNonEmptyArray (jlookup filter "not") "not" kwd
  else do
    let _ ← mustBeNonEmptyObject (jlookup (jlookup filter "not") kwd) ("not." ++ kwd)
    .ok ()

/-- `not(filter)`. -/
def dslNot (std : JVal → Except Err JVal) (filter : JVal) : Except Err JVal := do
  let fields ← mustBeNonEmptyObject (jlookup filter "not") "not"
  let fields ← onlyOneFieldAttribute fields "not"
  let _ ← notPrecheck filter (fields.headD "")
  let r ← std (jlookup filter "not")
  .ok (.obj [("not", r)])

/-- `standardized.and = standardized.and.concat(v); standardized._isLeaf =
false` — the append step of `bool`.  Reading `.and` of a value without that
attribute throws (`undefined.concat`), which is exactly what happens when a
previous step replaced the accumulator with an unwrapped single term. -/
def boolAppend (s v : JVal) : Except Err JVal :=
  match jlookup s "and" with
  | .arr l => .ok (jset (jset s "and" (.arr (jsConcat l v))) "_isLeaf" (.bool false))
  | .undefined => .error (.typeError "Cannot read property of undefined")
  | .null => .error (.typeError "Cannot read property of undefined")
  | _ => .error (.typeError "concat is not a function")

/-- The final `.then` of `bool`: unwrap a single accumulated element.
Reading `.length` of `undefined` throws; of a non-array non-string it
yields `undefined`, so the comparison with 1 is false and the accumulator
is returned as-is. -/
def boolFinal (s : JVal) : Except Err JVal :=
  match jlookup s "and" with
  | .arr l =>
      match l with
      | [c] => .ok c
      | _ => .ok s
  | .undefined => .error (.typeError "Cannot read property of undefined")
  | .null => .error (.typeError "Cannot read property of undefined")
  | .str t =>
      if t.length == 1 then .ok (jlookup (.str t) "0") else .ok s
  | _ => .ok s

def boolAttributes : List String := ["must", "must_not", "should", "should_not"]

/-- The fresh accumulator `bool` starts from. -/
def boolSeed : JVal := .obj [("and", .arr []), ("_isLeaf", .bool true)]

/-- Step 1 of `bool`: seed with the standardized `must` term, if present. -/
def boolStepMust (std : JVal → Except Err JVal) (fb : JVal) : Except Err JVal :=
  if truthy (jlookup fb "must") then
    dslAnd std (.obj [("and", jlookup fb "must")])
  else .ok boolSeed

/-- Step 2 of `bool`: append `{not: or(must_not)}`, if present. -/
def boolStepMustNot (std : JVal → Except Err JVal) (fb s : JVal) : Except Err JVal :=
  if truthy (jlookup fb "must_not") then do
    let f ← dslOr std (.obj [("or", jlookup fb "must_not")])
    boolAppend s (.obj [("not", f)])
  else .ok s

/-- Step 3 of `bool`: append `or(should)` directly, if present. -/
def boolStepShould (std : JVal → Except Err JVal) (fb s : JVal) : Except Err JVal :=
  if truthy (jlookup fb "should") then do
    let f ← dslOr std (.obj [("or", jlookup fb "should")])
    boolAppend s f
  else .ok s

/-- Step 4 of `bool`: append `{not: and(should_not)}`, if present. -/
def boolStepShouldNot (std : JVal → Except Err JVal) (fb s : JVal) : Except Err JVal :=
  if truthy (jlookup fb "should_not") then do
    let f ← dslAnd std (.obj [("and", jlookup fb "should_not")])
    boolAppend s (.obj [("not", f)])
  else .ok s

/-- The four sequential composition steps of `bool`, before the final
unwrap: seed with the standardized `must` (if present), then append
`{not: or(must_not)}`, `or(should)`, and `{not: and(should_not)}`. -/
def boolSteps (std : JVal → Except Err JVal) (filter : JVal) : Except Err JVal := do
  let fields ← mustBeNonEmptyObject (jlookup filter "bool") "bool"
  if fields.any (fun f => !(boolAttributes.contains f)) then
    .error (.badRequest "\"bool\" operand accepts only the following attributes: must, must_not, should, should_not")
  else do
    let s1 ← boolStepMust std (jlookup filter "bool")
    let s2 ← boolStepMustNot std (jlookup filter "bool") s1
    let s3 ← boolStepShould std (jlookup filter "bool") s2
    let s4 ← boolStepShouldNot std (jlookup filter "bool") s3
    .ok s4

/-- `bool(filter)`. -/
def dslBool (std : JVal → Except Err JVal) (filter : JVal) : Except Err JVal := do
  let s ← boolSteps std filter
  boolFinal s

/-! ## Dispatch entry point -/

/-- The DSL keywords the spec recognizes — exactly the validator methods a
filter is supposed to name. -/
def dslKeywords : List String :=
  ["exists", "missing", "ids", "equals", "in", "range", "regexp",
   "geoBoundingBox", "geoDistance", "geoDistanceRange", "geoPolygon",
   "and", "or", "not", "bool"]

/-- Inherited `Object.prototype` members visible on the `Standardizer`
instance: `this[k]` is truthy for these too, so dispatch reaches them. -/
def protoNames : List String :=
  ["constructor", "hasOwnProperty", "isPrototypeOf", "propertyIsEnumerable",
   "toLocaleString", "toString", "valueOf", "__proto__", "__defineGetter__",
   "__defineSetter__", "__lookupGetter__", "__lookupSetter__"]

/-- Keys for which `!this[keywords[0]]` is false, i.e. for which the
reflective dispatch does NOT produce the unknown-keyword error: the DSL
keywords, the two other own methods of the class, and the inherited
`Object.prototype` members. -/
def dispatchable (k : String) : Bool :=
  dslKeywords.contains k || k == "standardize" || k == "_standardizeFilterArray" ||
    protoNames.contains k

/-- `const keywords = filters ? Object.keys(filters) : []`. -/
def jsKeysOf (filters : JVal) : List String :=
  if truthy filters then jkeys filters else []

/-- The reflective method lookup and call `this[keywords[0]](filters)`
performed by `standardize` once it has established that there is exactly
one top-level key.  `std` is the recursive entry point handed to the
combinator validators (and invoked directly when the key is itself
`standardize`). -/
def dispatchKeyword (std : JVal → Except Err JVal) (k : String) (filters : JVal) :
    Except Err JVal :=
  if k == "exists" then dslExists filters "exists"
  else if k == "missing" then dslMissing filters
  else if k == "ids" then dslIds filters
  else if k == "equals" then dslEquals filters
  else if k == "in" then dslIn filters
  else if k == "range" then dslRange filters
  else if k == "regexp" then dslRegexp filters
  else if k == "geoBoundingBox" then dslGeoBoundingBox filters
  else if k == "geoDistance" then dslGeoDistance filters
  else if k == "geoDistanceRange" then dslGeoDistanceRange filters
  else if k == "geoPolygon" then dslGeoPolygon filters
  else if k == "and" then dslAnd std filters
  else if k == "or" then dslOr std filters
  else if k == "not" then dslNot std filters
  else if k == "bool" then dslBool std filters
  else if k == "standardize" then std filters
  else if k == "_standardizeFilterArray" then
    -- `this._standardizeFilterArray(filters)` runs with `operand`
    -- undefined: `filters[undefined]` is undefined and
    -- `Object.keys(undefined)` throws.
    .error (.typeError "Cannot convert undefined or null to object")
  else if protoNames.contains k then .error (.hostBehavior k)
  else .error (.badRequest ("Unknown DSL keyword: " ++ k))

/-- `standardize(filters)`.  The fuel argument bounds the recursion depth;
it is consumed exactly once per `standardize` entry, so nesting a filter
`n` levels deep needs fuel `> n`, and the reflective self-dispatch on a
`standardize` key (which recurses on the same argument forever in JS)
exhausts any finite fuel. -/
def standardize : Nat → JVal → Except Err JVal
  | 0 => fun _ => .error .stackOverflow
  | b + 1 => fun filters =>
      match jsKeysOf filters with
      | [] => .ok (.obj [])
      | [k] => dispatchKeyword (standardize b) k filters
      | _ => .error (.badRequest "Invalid filter syntax")

/-! ## Well-formedness of `_isLeaf` flags

The `&=` of the flattening fold reads the `_isLeaf` attribute of
standardized sub-results.  The values that attribute can take in any output
of `standardize` are `undefined` (attribute absent), a boolean, or the
numbers 0/1 produced by a previous `&=`; this invariant (proved below by
induction over `standardize`) is what makes the bitmask accumulation agree
with a boolean AND of truthiness. -/

/-- Values the top-level `_isLeaf` attribute of a standardized node can
take. -/
def okFlagVal : JVal → Bool
  | .undefined => true
  | .bool _ => true
  | .num q => q == 0 || q == 1
  | _ => false

/-- Values `result._isLeaf` takes inside the fold (never `undefined`). -/
def okLeafVal : JVal → Bool
  | .bool _ => true
  | .num q => q == 0 || q == 1
  | _ => false

/-- Is the value a plain JS object? -/
def isObjB : JVal → Bool
  | .obj _ => true
  | _ => false

mutual
/-- Every node reachable through `and`/`or` child arrays carries a
well-formed `_isLeaf` flag, those combinator attributes are arrays, and
their elements are plain objects (every value `standardize` ever places in
a combinator child list is one). -/
def flagsOK : JVal → Bool
  | .obj kvs => okFlagVal (lookupKV kvs "_isLeaf") && flagsOKEntries kvs
  | _ => true

def flagsOKEntries : List (String × JVal) → Bool
  | [] => true
  | (k, v) :: rest =>
      (if k == "and" || k == "or" then flagsOKChild v else true) && flagsOKEntries rest

def flagsOKChild : JVal → Bool
  | .arr l => flagsOKList l
  | _ => false

def flagsOKList : List JVal → Bool
  | [] => true
  | v :: rest => (isObjB v && flagsOK v) && flagsOKList rest
end

/-- A well-formed standardized node: a plain object satisfying `flagsOK`. -/
def nodeOK (v : JVal) : Bool := isObjB v && flagsOK v


theorem okFlagVal_num (q : ℚ) (h : okFlagVal (.num q) = true) : q = 0 ∨ q = 1 := by
  simpa [okFlagVal] using h

theorem toI32_flag (f : JVal) (hf : okFlagVal f = true) :
    toI32 f = if truthy f then 1 else 0 := by
  cases f with
  | undefined => rfl
  | bool b => cases b <;> rfl
  | num q =>
      rcases okFlagVal_num q hf with h | h <;> subst h <;> rfl
  | null => simp [okFlagVal] at hf
  | str s => simp [okFlagVal] at hf
  | arr l => simp [okFlagVal] at hf
  | obj kvs => simp [okFlagVal] at hf

theorem okLeafVal_okFlagVal (a : JVal) (h : okLeafVal a = true) : okFlagVal a = true := by
  cases a <;> simp_all [okLeafVal, okFlagVal]

theorem jsBitAnd_flag (a f : JVal) (ha : okLeafVal a = true) (hf : okFlagVal f = true) :
    jsBitAnd a f = .num (if truthy a && truthy f then 1 else 0) := by
  have h1 : toI32 a = if truthy a then 1 else 0 := toI32_flag a (okLeafVal_okFlagVal a ha)
  have h2 : toI32 f = if truthy f then 1 else 0 := toI32_flag f hf
  unfold jsBitAnd
  rw [h1, h2]
  cases hta : truthy a <;> cases htf : truthy f <;> rfl

theorem okLeafVal_jsBitAnd (a f : JVal) (ha : okLeafVal a = true) (hf : okFlagVal f = true) :
    okLeafVal (jsBitAnd a f) = true := by
  rw [jsBitAnd_flag a f ha hf]
  cases truthy a && truthy f <;> simp [okLeafVal]

theorem truthy_jsBitAnd (a f : JVal) (ha : okLeafVal a = true) (hf : okFlagVal f = true) :
    truthy (jsBitAnd a f) = (truthy a && truthy f) := by
  rw [jsBitAnd_flag a f ha hf]
  cases truthy a && truthy f <;> rfl


theorem lookupKV_setKV_self (kvs : List (String × JVal)) (k : String) (v : JVal) :
    lookupKV (setKV kvs k v) k = v := by
  induction kvs with
  | nil => simp [setKV, lookupKV]
  | cons p rest ih =>
      obtain ⟨k', v'⟩ := p
      by_cases h : (k' == k) = true
      · simp [setKV, h, lookupKV]
      · simp at h
        simp [setKV, h, lookupKV, ih]

theorem lookupKV_setKV_ne (kvs : List (String × JVal)) (k k' : String) (v : JVal)
    (h : k' ≠ k) : lookupKV (setKV kvs k v) k' = lookupKV kvs k' := by
  induction kvs with
  | nil =>
      simp only [setKV, lookupKV]
      rw [if_neg]
      intro he
      exact h (Eq.symm (by simpa using he))
  | cons p rest ih =>
      obtain ⟨k0, v0⟩ := p
      by_cases h0 : (k0 == k) = true
      · have hk0 : k0 = k := by simpa using h0
        subst hk0
        simp only [setKV, beq_self_eq_true, if_true, lookupKV]
        rw [if_neg, if_neg]
        · intro he
          exact h (Eq.symm (by simpa using he))
        · intro he
          exact h (Eq.symm (by simpa using he))
      · simp only [setKV, h0, if_false, lookupKV, ih]

theorem flagsOKEntries_setKV (kvs : List (String × JVal)) (k : String) (v : JVal)
    (h1 : flagsOKEntries kvs = true)
    (h2 : (if k == "and" || k == "or" then flagsOKChild v else true) = true) :
    flagsOKEntries (setKV kvs k v) = true := by
  induction kvs with
  | nil => simpa [setKV, flagsOKEntries] using h2
  | cons p rest ih =>
      obtain ⟨k0, v0⟩ := p
      simp only [flagsOKEntries, Bool.and_eq_true] at h1
      by_cases h0 : (k0 == k) = true
      · simp at h0
        subst h0
        simp only [setKV, beq_self_eq_true, if_true, flagsOKEntries, Bool.and_eq_true]
        exact ⟨h2, h1.2⟩
      · simp only [setKV, h0, if_false, flagsOKEntries, Bool.and_eq_true]
        exact ⟨h1.1, ih h1.2⟩

theorem flagsOKEntries_lookup (kvs : List (String × JVal)) (k : String)
    (h : flagsOKEntries kvs = true) (hk : (k == "and" || k == "or") = true) :
    flagsOKChild (lookupKV kvs k) = true ∨ lookupKV kvs k = .undefined := by
  induction kvs with
  | nil => right; rfl
  | cons p rest ih =>
      obtain ⟨k0, v0⟩ := p
      simp only [flagsOKEntries, Bool.and_eq_true] at h
      by_cases h0 : (k0 == k) = true
      · have hkeq : k0 = k := by simpa using h0
        subst hkeq
        left
        simp only [lookupKV, beq_self_eq_true, if_true]
        have : (if k0 == "and" || k0 == "or" then flagsOKChild v0 else true) = true := h.1
        rwa [if_pos hk] at this
      · simp only [lookupKV, h0, if_false]
        exact ih h.2

theorem flagsOK_obj (kvs : List (String × JVal)) :
    flagsOK (.obj kvs) = (okFlagVal (lookupKV kvs "_isLeaf") && flagsOKEntries kvs) := by
  simp [flagsOK]

theorem flagsOKList_mem (l : List JVal) (h : flagsOKList l = true) (v : JVal) (hv : v ∈ l) :
    nodeOK v = true := by
  induction l with
  | nil => cases hv
  | cons x rest ih =>
      simp only [flagsOKList, Bool.and_eq_true] at h
      rcases List.mem_cons.mp hv with hv | hv
      · subst hv
        simp only [nodeOK, Bool.and_eq_true]
        exact h.1
      · exact ih h.2 hv

theorem flagsOKList_append (a b : List JVal) (ha : flagsOKList a = true)
    (hb : flagsOKList b = true) : flagsOKList (a ++ b) = true := by
  induction a with
  | nil => simpa using hb
  | cons x rest ih =>
      simp only [flagsOKList, Bool.and_eq_true] at ha ⊢
      exact ⟨ha.1, ih ha.2⟩


theorem flagsOK_singleton (k : String) (v : JVal) (hk1 : (k == "and") = false)
    (hk2 : (k == "or") = false) (hk3 : (k == "_isLeaf") = false) :
    flagsOK (.obj [(k, v)]) = true := by
  simp [flagsOK, flagsOKEntries, lookupKV, hk1, hk2, hk3, okFlagVal]

theorem flagsOKList_leaves (fld : String) (vs : List JVal) :
    flagsOKList (vs.map (fun v => JVal.obj [("equals", .obj [(fld, v)])])) = true := by
  induction vs with
  | nil => simp [flagsOKList]
  | cons x rest ih =>
      simp only [List.map_cons, flagsOKList, Bool.and_eq_true]
      exact ⟨⟨rfl, flagsOK_singleton "equals" _ rfl rfl rfl⟩, ih⟩

theorem flagsOKList_singleton_node (v : JVal) (h : nodeOK v = true) :
    flagsOKList [v] = true := by
  simp only [nodeOK, Bool.and_eq_true] at h
  simp [flagsOKList, h.1, h.2]

theorem flagsOKChild_arr (x : JVal) (h : flagsOKChild x = true) :
    ∃ l, x = .arr l ∧ flagsOKList l = true := by
  cases x <;> simp_all [flagsOKChild]

/-- A node whose first `Object.keys` entry is `and` or `or` must be a plain
object (arrays and strings only expose decimal-index keys). -/
theorem head_key_combinator_obj (v : JVal) (op : String) (hop : op = "and" ∨ op = "or")
    (h : (jkeys v).head? = some op) : ∃ kvs, v = .obj kvs := by
  cases v with
  | obj kvs => exact ⟨kvs, rfl⟩
  | str s =>
      exfalso
      simp only [jkeys] at h
      cases hn : s.length with
      | zero => rw [hn] at h; simp at h
      | succ m =>
          rw [hn, List.range_succ_eq_map] at h
          simp only [List.map_cons, List.head?_cons, Option.some.injEq] at h
          rcases hop with hx | hx <;> rw [hx] at h <;> exact absurd h.symm (by decide)
  | arr l =>
      exfalso
      simp only [jkeys] at h
      cases hn : l.length with
      | zero => rw [hn] at h; simp at h
      | succ m =>
          rw [hn, List.range_succ_eq_map] at h
          simp only [List.map_cons, List.head?_cons, Option.some.injEq] at h
          rcases hop with hx | hx <;> rw [hx] at h <;> exact absurd h.symm (by decide)
  | undefined => simp [jkeys] at h
  | null => simp [jkeys] at h
  | bool b => simp [jkeys] at h
  | num q => simp [jkeys] at h

/-- A node whose first key is the operand has that operand as its first
entry, whose value (by `flagsOK`) is a well-formed child array. -/
theorem head_entry_lookup (kvs : List (String × JVal)) (op : String)
    (hhead : ((kvs.map Prod.fst).head? = some op)) :
    lookupKV kvs op = (kvs.headD ("", .undefined)).2 := by
  cases kvs with
  | nil => simp at hhead
  | cons p rest =>
      obtain ⟨k0, v0⟩ := p
      simp only [List.map_cons, List.head?_cons, Option.some.injEq] at hhead
      subst hhead
      simp [lookupKV]

/-- One fold step preserves accumulator well-formedness. -/
theorem sfaFoldStep_ok (op : String) (hop : op = "and" ∨ op = "or")
    (acc : List JVal × JVal) (sub : JVal)
    (h1 : flagsOKList acc.1 = true) (h2 : okLeafVal acc.2 = true)
    (hsub : nodeOK sub = true) :
    flagsOKList (sfaFoldStep op acc sub).1 = true ∧
    okLeafVal (sfaFoldStep op acc sub).2 = true := by
  have hsub' := hsub
  simp only [nodeOK, Bool.and_eq_true] at hsub'
  unfold sfaFoldStep
  cases hhead : (jkeys sub).head? with
  | none =>
      exact ⟨flagsOKList_append acc.1 [sub] h1 (flagsOKList_singleton_node sub hsub), h2⟩
  | some k =>
      by_cases hk : (k == op) = true
      · simp only [hk, if_true]
        have hkop : k = op := by simpa using hk
        subst hkop
        obtain ⟨kvs, hv⟩ := head_key_combinator_obj sub k hop hhead
        subst hv
        have hfl := hsub'.2
        rw [flagsOK_obj, Bool.and_eq_true] at hfl
        have hkor : (k == "and" || k == "or") = true := by
          rcases hop with h | h <;> simp [h]
        constructor
        · -- the first entry of `sub` is the operand, so the lookup hits it
          cases kvs with
          | nil => simp [jkeys] at hhead
          | cons p rest =>
              obtain ⟨k0, v0⟩ := p
              simp only [jkeys, List.map_cons, List.head?_cons, Option.some.injEq] at hhead
              subst hhead
              simp only [flagsOKEntries, Bool.and_eq_true] at hfl
              have hcv : flagsOKChild v0 = true := by
                have := hfl.2.1
                rwa [if_pos hkor] at this
              rcases flagsOKChild_arr _ hcv with ⟨l, hl, hlok⟩
              subst hl
              simp only [jlookup, lookupKV, beq_self_eq_true, if_true, jsConcat]
              exact flagsOKList_append acc.1 l h1 hlok
        · exact okLeafVal_jsBitAnd acc.2 _ h2 hfl.1
      · simp only [hk, if_false]
        refine ⟨flagsOKList_append acc.1 [sub] h1 (flagsOKList_singleton_node sub hsub), ?_⟩
        by_cases hor : (k == "and" || k == "or") = true
        · simp [hor, okLeafVal]
        · simp only [Bool.not_eq_true] at hor
          simp [hor, h2]

/-- The whole fold preserves accumulator well-formedness. -/
theorem sfaFold_flagsOK (op : String) (hop : op = "and" ∨ op = "or")
    (subs : List JVal) :
    ∀ (acc : List JVal × JVal), flagsOKList acc.1 = true → okLeafVal acc.2 = true →
    (∀ s ∈ subs, nodeOK s = true) →
    flagsOKList (subs.foldl (sfaFoldStep op) acc).1 = true ∧
    okLeafVal (subs.foldl (sfaFoldStep op) acc).2 = true := by
  induction subs with
  | nil => intro acc hh1 hh2 _; exact ⟨hh1, hh2⟩
  | cons sub rest ih =>
      intro acc hh1 hh2 hall
      simp only [List.foldl_cons]
      have hstep := sfaFoldStep_ok op hop acc sub hh1 hh2
        (hall sub (List.mem_cons_self sub rest))
      exact ih _ hstep.1 hstep.2 (fun s hs => hall s (List.mem_cons_of_mem sub hs))


theorem exceptBind_ok {α β : Type} (x : Except Err α) (g : α → Except Err β) (r : β)
    (h : (x >>= g) = .ok r) : ∃ a, x = .ok a ∧ g a = .ok r := by
  cases x with
  | error e => simp [Bind.bind, Except.bind] at h
  | ok a =>
      refine ⟨a, rfl, ?_⟩
      simpa [Bind.bind, Except.bind] using h

theorem dslExists_ok (f : JVal) (name : String) (r : JVal)
    (h : dslExists f name = .ok r) : r = f := by
  unfold dslExists at h
  obtain ⟨fields, h1, h⟩ := exceptBind_ok _ _ _ h
  obtain ⟨x1, h2, h⟩ := exceptBind_ok _ _ _ h
  obtain ⟨x2, h3, h⟩ := exceptBind_ok _ _ _ h
  split at h
  · split at h
    · simp at h
    · exact (Except.ok.inj h).symm
  · exact (Except.ok.inj h).symm

theorem dslEquals_ok (f r : JVal) (h : dslEquals f = .ok r) : r = f := by
  unfold dslEquals at h
  obtain ⟨fields, h1, h⟩ := exceptBind_ok _ _ _ h
  obtain ⟨x1, h2, h⟩ := exceptBind_ok _ _ _ h
  obtain ⟨x2, h3, h⟩ := exceptBind_ok _ _ _ h
  exact (Except.ok.inj h).symm

theorem rangeDecide_ok (rf : String) (f : JVal) (st : Option ℚ × Option ℚ × Option Err)
    (r : JVal) (h : rangeDecide rf f st = .ok r) : r = f := by
  unfold rangeDecide at h
  split at h
  · simp at h
  · split at h
    · split at h
      · simp at h
      · exact (Except.ok.inj h).symm
    · exact (Except.ok.inj h).symm

theorem dslRange_ok (f r : JVal) (h : dslRange f = .ok r) : r = f := by
  unfold dslRange at h
  obtain ⟨fields, h1, h⟩ := exceptBind_ok _ _ _ h
  obtain ⟨fields2, h2, h⟩ := exceptBind_ok _ _ _ h
  obtain ⟨rangeValues, h3, h⟩ := exceptBind_ok _ _ _ h
  split at h
  · simp at h
  · split at h
    · simp at h
    · exact rangeDecide_ok _ _ _ _ h

theorem dslRegexp_ok (f r : JVal) (h : dslRegexp f = .ok r) : r = f := by
  unfold dslRegexp at h
  obtain ⟨fields, h1, h⟩ := exceptBind_ok _ _ _ h
  obtain ⟨fields2, h2, h⟩ := exceptBind_ok _ _ _ h
  obtain ⟨regexpValues, h3, h⟩ := exceptBind_ok _ _ _ h
  split at h
  · simp at h
  · obtain ⟨x1, h4, h⟩ := exceptBind_ok _ _ _ h
    obtain ⟨x2, h5, h⟩ := exceptBind_ok _ _ _ h
    split at h
    · exact (Except.ok.inj h).symm
    · simp at h


theorem nodeOK_obj (kvs : List (String × JVal)) :
    nodeOK (.obj kvs) = flagsOK (.obj kvs) := by
  simp [nodeOK, isObjB]

theorem flagsOK_combNode (op : String) (hop : op = "and" ∨ op = "or")
    (children : List JVal) (hch : flagsOKList children = true)
    (lv : JVal) (hlv : okFlagVal lv = true) :
    flagsOK (.obj [(op, .arr children), ("_isLeaf", lv)]) = true := by
  rcases hop with h | h <;> subst h <;>
    simp [flagsOK, flagsOKEntries, lookupKV, flagsOKChild, hch, hlv]

theorem nodeOK_combNode (op : String) (hop : op = "and" ∨ op = "or")
    (children : List JVal) (hch : flagsOKList children = true)
    (lv : JVal) (hlv : okFlagVal lv = true) :
    nodeOK (.obj [(op, .arr children), ("_isLeaf", lv)]) = true := by
  rw [nodeOK_obj]
  exact flagsOK_combNode op hop children hch lv hlv

theorem nodeOK_singleton (k : String) (v : JVal) (hk1 : (k == "and") = false)
    (hk2 : (k == "or") = false) (hk3 : (k == "_isLeaf") = false) :
    nodeOK (.obj [(k, v)]) = true := by
  rw [nodeOK_obj]
  exact flagsOK_singleton k v hk1 hk2 hk3

theorem dslMissing_flagsOK (f r : JVal) (h : dslMissing f = .ok r) : nodeOK r = true := by
  unfold dslMissing at h
  obtain ⟨f2, h1, h⟩ := exceptBind_ok _ _ _ h
  have := (Except.ok.inj h).symm
  subst this
  exact nodeOK_singleton "not" _ rfl rfl rfl

theorem dslIds_flagsOK (f r : JVal) (h : dslIds f = .ok r) : nodeOK r = true := by
  unfold dslIds at h
  obtain ⟨fields, h1, h⟩ := exceptBind_ok _ _ _ h
  obtain ⟨x1, h2, h⟩ := exceptBind_ok _ _ _ h
  obtain ⟨x2, h3, h⟩ := exceptBind_ok _ _ _ h
  obtain ⟨x3, h4, h⟩ := exceptBind_ok _ _ _ h
  split at h
  · split at h
    · simp at h
    · have := (Except.ok.inj h).symm
      subst this
      exact nodeOK_combNode "or" (Or.inr rfl) _ (flagsOKList_leaves "_id" _) _ rfl
  · simp at h

theorem dslIn_flagsOK (f r : JVal) (h : dslIn f = .ok r) : nodeOK r = true := by
  unfold dslIn at h
  obtain ⟨fields, h1, h⟩ := exceptBind_ok _ _ _ h
  obtain ⟨fields2, h2, h⟩ := exceptBind_ok _ _ _ h
  obtain ⟨x2, h3, h⟩ := exceptBind_ok _ _ _ h
  split at h
  · split at h
    · simp at h
    · have := (Except.ok.inj h).symm
      subst this
      exact nodeOK_combNode "or" (Or.inr rfl) _ (flagsOKList_leaves _ _) _ rfl
  · simp at h

theorem dslGeoBoundingBox_flagsOK (f r : JVal) (h : dslGeoBoundingBox f = .ok r) :
    nodeOK r = true := by
  unfold dslGeoBoundingBox at h
  obtain ⟨fields, h1, h⟩ := exceptBind_ok _ _ _ h
  obtain ⟨fields2, h2, h⟩ := exceptBind_ok _ _ _ h
  dsimp only at h
  split at h
  · simp at h
  · have := (Except.ok.inj h).symm
    subst this
    exact nodeOK_singleton "geospatial" _ rfl rfl rfl

theorem dslGeoDistance_flagsOK (f r : JVal) (h : dslGeoDistance f = .ok r) :
    nodeOK r = true := by
  unfold dslGeoDistance at h
  obtain ⟨fields, h1, h⟩ := exceptBind_ok _ _ _ h
  split at h
  · simp at h
  · obtain ⟨x1, h2, h⟩ := exceptBind_ok _ _ _ h
    dsimp only at h
    split at h
    · simp at h
    · split at h
      · obtain ⟨d, h3, h⟩ := exceptBind_ok _ _ _ h
        have := (Except.ok.inj h).symm
        subst this
        exact nodeOK_singleton "geospatial" _ rfl rfl rfl
      · simp at h

theorem dslGeoDistanceRange_flagsOK (f r : JVal) (h : dslGeoDistanceRange f = .ok r) :
    nodeOK r = true := by
  unfold dslGeoDistanceRange at h
  obtain ⟨fields, h1, h⟩ := exceptBind_ok _ _ _ h
  split at h
  · simp at h
  · dsimp only at h
    obtain ⟨x1, h2, h⟩ := exceptBind_ok _ _ _ h
    obtain ⟨x2, h3, h⟩ := exceptBind_ok _ _ _ h
    split at h
    · simp at h
    · split at h
      · obtain ⟨d1, h4, h⟩ := exceptBind_ok _ _ _ h
        obtain ⟨d2, h5, h⟩ := exceptBind_ok _ _ _ h
        split at h
        · simp at h
        · have := (Except.ok.inj h).symm
          subst this
          exact nodeOK_singleton "geospatial" _ rfl rfl rfl
      · simp at h

theorem dslGeoPolygon_flagsOK (f r : JVal) (h : dslGeoPolygon f = .ok r) :
    nodeOK r = true := by
  unfold dslGeoPolygon at h
  obtain ⟨fields, h1, h⟩ := exceptBind_ok _ _ _ h
  obtain ⟨fields2, h2, h⟩ := exceptBind_ok _ _ _ h
  dsimp only at h
  obtain ⟨x1, h3, h⟩ := exceptBind_ok _ _ _ h
  obtain ⟨x2, h4, h⟩ := exceptBind_ok _ _ _ h
  split at h
  · split at h
    · simp at h
    · obtain ⟨pts, h5, h⟩ := exceptBind_ok _ _ _ h
      have := (Except.ok.inj h).symm
      subst this
      exact nodeOK_singleton "geospatial" _ rfl rfl rfl
  · simp at h

/-- All results of a successful `standardizeAll` are results of `std`. -/
theorem standardizeAll_mem (std : JVal → Except Err JVal)
    (hstd : ∀ f r, std f = .ok r → nodeOK r = true) :
    ∀ (l rs : List JVal), standardizeAll std l = .ok rs → ∀ s ∈ rs, nodeOK s = true := by
  intro l
  induction l with
  | nil =>
      intro rs h s hs
      unfold standardizeAll at h
      have := (Except.ok.inj h).symm
      subst this
      cases hs
  | cons v rest ih =>
      intro rs h s hs
      unfold standardizeAll at h
      obtain ⟨r, h1, h⟩ := exceptBind_ok _ _ _ h
      obtain ⟨rs2, h2, h⟩ := exceptBind_ok _ _ _ h
      have := (Except.ok.inj h).symm
      subst this
      rcases List.mem_cons.mp hs with hv | hv
      · subst hv; exact hstd v s h1
      · exact ih rs2 h2 s hv

/-- Well-formedness of a successful `_standardizeFilterArray` result. -/
theorem sfa_flagsOK (std : JVal → Except Err JVal)
    (hstd : ∀ f r, std f = .ok r → nodeOK r = true)
    (filter : JVal) (op : String) (hop : op = "and" ∨ op = "or") (r : JVal)
    (h : standardizeFilterArray std filter op = .ok r) : nodeOK r = true := by
  unfold standardizeFilterArray at h
  split at h
  · simp at h
  · simp at h
  · rename_i x0 l hl
    obtain ⟨bad, h1, h⟩ := exceptBind_ok _ _ _ h
    split at h
    · simp at h
    · obtain ⟨subs, h2, h⟩ := exceptBind_ok _ _ _ h
      have hsubs : ∀ s ∈ subs, nodeOK s = true := standardizeAll_mem std hstd l subs h2
      have hfold := sfaFold_flagsOK op hop subs ([], .bool true) rfl rfl hsubs
      dsimp only at h
      split at h
      · rename_i c hc
        have := (Except.ok.inj h).symm
        subst this
        apply flagsOKList_mem _ hfold.1
        rw [hc]
        exact List.mem_singleton.mpr rfl
      · have := (Except.ok.inj h).symm
        subst this
        exact nodeOK_combNode op hop _ hfold.1 _ (okLeafVal_okFlagVal _ hfold.2)
  · obtain ⟨bad, h1, h⟩ := exceptBind_ok _ _ _ h
    split at h <;> simp at h

theorem dslAnd_flagsOK (std : JVal → Except Err JVal)
    (hstd : ∀ f r, std f = .ok r → nodeOK r = true)
    (filter r : JVal) (h : dslAnd std filter = .ok r) : nodeOK r = true := by
  unfold dslAnd at h
  obtain ⟨x1, h1, h⟩ := exceptBind_ok _ _ _ h
  exact sfa_flagsOK std hstd filter "and" (Or.inl rfl) r h

theorem dslOr_flagsOK (std : JVal → Except Err JVal)
    (hstd : ∀ f r, std f = .ok r → nodeOK r = true)
    (filter r : JVal) (h : dslOr std filter = .ok r) : nodeOK r = true := by
  unfold dslOr at h
  obtain ⟨x1, h1, h⟩ := exceptBind_ok _ _ _ h
  exact sfa_flagsOK std hstd filter "or" (Or.inr rfl) r h

theorem dslNot_flagsOK (std : JVal → Except Err JVal) (filter r : JVal)
    (h : dslNot std filter = .ok r) : nodeOK r = true := by
  unfold dslNot at h
  obtain ⟨fields, h1, h⟩ := exceptBind_ok _ _ _ h
  obtain ⟨fields2, h2, h⟩ := exceptBind_ok _ _ _ h
  obtain ⟨x1, h3, h⟩ := exceptBind_ok _ _ _ h
  obtain ⟨r2, h4, h⟩ := exceptBind_ok _ _ _ h
  have := (Except.ok.inj h).symm
  subst this
  exact nodeOK_singleton "not" r2 rfl rfl rfl


theorem jlookup_arr_and (l : List JVal) : jlookup (.arr l) "and" = .undefined := rfl
theorem jlookup_str_and (t : String) : jlookup (.str t) "and" = .undefined := rfl

theorem nodeOK_parts (v : JVal) (h : nodeOK v = true) :
    (∃ kvs, v = .obj kvs) ∧ flagsOK v = true := by
  simp only [nodeOK, Bool.and_eq_true] at h
  cases v <;> simp_all [isObjB]

/-- The `and` attribute of a `flagsOK` object is either absent or a
well-formed child array. -/
theorem flagsOK_and_attr (kvs : List (String × JVal)) (h : flagsOK (.obj kvs) = true) :
    lookupKV kvs "and" = .undefined ∨
    ∃ l, lookupKV kvs "and" = .arr l ∧ flagsOKList l = true := by
  rw [flagsOK_obj, Bool.and_eq_true] at h
  rcases flagsOKEntries_lookup kvs "and" h.2 (by decide) with hc | hc
  · rcases flagsOKChild_arr _ hc with ⟨l, hl, hok⟩
    exact Or.inr ⟨l, hl, hok⟩
  · exact Or.inl hc

/-- `boolAppend` preserves node well-formedness (its `v` argument is a
well-formed node at every call site, in particular an object, which
`concat` therefore appends as a single element). -/
theorem boolAppend_nodeOK (s v s' : JVal) (hs : nodeOK s = true)
    (hv : nodeOK v = true) (h : boolAppend s v = .ok s') : nodeOK s' = true := by
  obtain ⟨⟨kvs, hso⟩, hsf⟩ := nodeOK_parts s hs
  subst hso
  unfold boolAppend at h
  split at h
  · rename_i l hl
    have hse := (Except.ok.inj h).symm
    subst hse
    simp only [jlookup] at hl
    have hl2 : flagsOKList l = true := by
      rcases flagsOK_and_attr kvs hsf with hc | ⟨l2, hl2, hok⟩
      · rw [hl] at hc; cases hc
      · rw [hl] at hl2
        cases hl2
        exact hok
    have hconcat : flagsOKList (jsConcat l v) = true := by
      obtain ⟨⟨vk, hvo⟩, hvf⟩ := nodeOK_parts v hv
      subst hvo
      simp only [jsConcat]
      exact flagsOKList_append l [JVal.obj vk] hl2
        (flagsOKList_singleton_node _ hv)
    simp only [jset]
    rw [nodeOK_obj, flagsOK_obj, Bool.and_eq_true]
    constructor
    · rw [lookupKV_setKV_self]
      rfl
    · apply flagsOKEntries_setKV
      · apply flagsOKEntries_setKV _ _ _ ((Bool.and_eq_true _ _).mp ((flagsOK_obj kvs) ▸ hsf)).2
        simpa [flagsOKChild] using hconcat
      · simp
  · simp at h
  · simp at h
  · simp at h

/-- `boolFinal` preserves node well-formedness. -/
theorem boolFinal_nodeOK (s r : JVal) (hs : nodeOK s = true)
    (h : boolFinal s = .ok r) : nodeOK r = true := by
  obtain ⟨⟨kvs, hso⟩, hsf⟩ := nodeOK_parts s hs
  subst hso
  unfold boolFinal at h
  split at h
  · rename_i l hl
    simp only [jlookup] at hl
    have hl2 : flagsOKList l = true := by
      rcases flagsOK_and_attr kvs hsf with hc | ⟨l2, hl2, hok⟩
      · rw [hl] at hc; cases hc
      · rw [hl] at hl2
        cases hl2
        exact hok
    split at h
    · have := (Except.ok.inj h).symm
      subst this
      exact flagsOKList_mem _ hl2 r (by simp)
    · have := (Except.ok.inj h).symm
      subst this
      exact hs
  · simp at h
  · simp at h
  · rename_i t hl
    simp only [jlookup] at hl
    exfalso
    rcases flagsOK_and_attr kvs hsf with hc | ⟨l2, hl2, hok⟩
    · rw [hl] at hc; cases hc
    · rw [hl] at hl2; cases hl2
  · have := (Except.ok.inj h).symm
    subst this
    exact hs

theorem boolStepMust_nodeOK (std : JVal → Except Err JVal)
    (hstd : ∀ f r, std f = .ok r → nodeOK r = true)
    (fb s : JVal) (h : boolStepMust std fb = .ok s) : nodeOK s = true := by
  unfold boolStepMust at h
  split at h
  · exact dslAnd_flagsOK std hstd _ _ h
  · have := (Except.ok.inj h).symm
    subst this
    show nodeOK (JVal.obj [("and", .arr []), ("_isLeaf", .bool true)]) = true
    rw [nodeOK_obj]
    exact flagsOK_combNode "and" (Or.inl rfl) [] rfl (.bool true) rfl

theorem boolStepMustNot_nodeOK (std : JVal → Except Err JVal)
    (_hstd : ∀ f r, std f = .ok r → nodeOK r = true)
    (fb s s2 : JVal) (hs : nodeOK s = true)
    (h : boolStepMustNot std fb s = .ok s2) : nodeOK s2 = true := by
  unfold boolStepMustNot at h
  split at h
  · obtain ⟨f2, hf2, h⟩ := exceptBind_ok _ _ _ h
    exact boolAppend_nodeOK s _ s2 hs (nodeOK_singleton "not" f2 rfl rfl rfl) h
  · have := (Except.ok.inj h).symm
    subst this
    exact hs

theorem boolStepShould_nodeOK (std : JVal → Except Err JVal)
    (hstd : ∀ f r, std f = .ok r → nodeOK r = true)
    (fb s s2 : JVal) (hs : nodeOK s = true)
    (h : boolStepShould std fb s = .ok s2) : nodeOK s2 = true := by
  unfold boolStepShould at h
  split at h
  · obtain ⟨f2, hf2, h⟩ := exceptBind_ok _ _ _ h
    exact boolAppend_nodeOK s _ s2 hs (dslOr_flagsOK std hstd _ _ hf2) h
  · have := (Except.ok.inj h).symm
    subst this
    exact hs

theorem boolStepShouldNot_nodeOK (std : JVal → Except Err JVal)
    (_hstd : ∀ f r, std f = .ok r → nodeOK r = true)
    (fb s s2 : JVal) (hs : nodeOK s = true)
    (h : boolStepShouldNot std fb s = .ok s2) : nodeOK s2 = true := by
  unfold boolStepShouldNot at h
  split at h
  · obtain ⟨f2, hf2, h⟩ := exceptBind_ok _ _ _ h
    exact boolAppend_nodeOK s _ s2 hs (nodeOK_singleton "not" f2 rfl rfl rfl) h
  · have := (Except.ok.inj h).symm
    subst this
    exact hs

theorem boolSteps_nodeOK (std : JVal → Except Err JVal)
    (hstd : ∀ f r, std f = .ok r → nodeOK r = true)
    (f s : JVal) (h : boolSteps std f = .ok s) : nodeOK s = true := by
  unfold boolSteps at h
  obtain ⟨fields, h1, h⟩ := exceptBind_ok _ _ _ h
  split at h
  · simp at h
  · obtain ⟨s1, hs1, h⟩ := exceptBind_ok _ _ _ h
    obtain ⟨s2, hs2, h⟩ := exceptBind_ok _ _ _ h
    obtain ⟨s3, hs3, h⟩ := exceptBind_ok _ _ _ h
    obtain ⟨s4, hs4, h⟩ := exceptBind_ok _ _ _ h
    have := (Except.ok.inj h).symm
    subst this
    exact boolStepShouldNot_nodeOK std hstd _ _ _
      (boolStepShould_nodeOK std hstd _ _ _
        (boolStepMustNot_nodeOK std hstd _ _ _
          (boolStepMust_nodeOK std hstd _ _ hs1) hs2) hs3) hs4

theorem dslBool_nodeOK (std : JVal → Except Err JVal)
    (hstd : ∀ f r, std f = .ok r → nodeOK r = true)
    (f r : JVal) (h : dslBool std f = .ok r) : nodeOK r = true := by
  unfold dslBool at h
  obtain ⟨s, hs, h⟩ := exceptBind_ok _ _ _ h
  exact boolFinal_nodeOK s r (boolSteps_nodeOK std hstd f s hs) h


/-- A value with exactly one JS key is either a one-entry object with that
key, or an array/string of length one (whose sole key is `"0"`). -/
theorem single_key_cases (f : JVal) (k : String) (h : jsKeysOf f = [k]) :
    (∃ v, f = .obj [(k, v)]) ∨ k = "0" := by
  unfold jsKeysOf at h
  split at h
  · cases f with
    | obj kvs =>
        left
        simp only [jkeys] at h
        cases kvs with
        | nil => simp at h
        | cons p rest =>
            cases rest with
            | nil =>
                obtain ⟨k0, v0⟩ := p
                simp only [List.map_cons, List.map_nil, List.cons.injEq] at h
                exact ⟨v0, by rw [h.1]⟩
            | cons q rest2 => simp at h
    | arr l =>
        right
        simp only [jkeys] at h
        cases hn : l.length with
        | zero => rw [hn] at h; simp at h
        | succ m =>
            rw [hn, List.range_succ_eq_map] at h
            cases hm : m with
            | zero =>
                rw [hm] at h
                simp only [List.range_zero, List.map_nil, List.map_cons,
                  List.cons.injEq] at h
                exact h.1.symm
            | succ m2 => rw [hm] at h; simp at h
    | str s =>
        right
        simp only [jkeys] at h
        cases hn : s.length with
        | zero => rw [hn] at h; simp at h
        | succ m =>
            rw [hn, List.range_succ_eq_map] at h
            cases hm : m with
            | zero =>
                rw [hm] at h
                simp only [List.range_zero, List.map_nil, List.map_cons,
                  List.cons.injEq] at h
                exact h.1.symm
            | succ m2 => rw [hm] at h; simp at h
    | undefined => simp [jkeys] at h
    | null => simp [jkeys] at h
    | bool b => simp [jkeys] at h
    | num q => simp [jkeys] at h
  · cases h

/-- Key step of the standardization invariant: every successful dispatch
returns a well-formed node, assuming the recursive entry point does. -/
theorem dispatchKeyword_nodeOK (std : JVal → Except Err JVal)
    (hstd : ∀ f r, std f = .ok r → nodeOK r = true)
    (k : String) (f r : JVal) (hsingle : jsKeysOf f = [k])
    (h : dispatchKeyword std k f = .ok r) : nodeOK r = true := by
  have passthrough : ∀ (kw : String), k = kw → r = f →
      (kw == "and") = false → (kw == "or") = false → (kw == "_isLeaf") = false →
      (kw == "0") = false → nodeOK r = true := by
    intro kw hkw hr hx1 hx2 hx3 hx4
    rcases single_key_cases f k hsingle with ⟨v, hv⟩ | h0
    · rw [hr, hv]
      apply nodeOK_singleton k v
      · rw [hkw]; exact hx1
      · rw [hkw]; exact hx2
      · rw [hkw]; exact hx3
    · exact absurd (hkw.symm.trans h0) (by simpa using hx4)
  unfold dispatchKeyword at h
  by_cases hc1 : (k == "exists") = true
  · rw [if_pos hc1] at h
    exact passthrough "exists" (by simpa using hc1) (dslExists_ok f "exists" r h) rfl rfl rfl rfl
  rw [if_neg hc1] at h
  by_cases hc2 : (k == "missing") = true
  · rw [if_pos hc2] at h
    exact dslMissing_flagsOK f r h
  rw [if_neg hc2] at h
  by_cases hc3 : (k == "ids") = true
  · rw [if_pos hc3] at h
    exact dslIds_flagsOK f r h
  rw [if_neg hc3] at h
  by_cases hc4 : (k == "equals") = true
  · rw [if_pos hc4] at h
    exact passthrough "equals" (by simpa using hc4) (dslEquals_ok f r h) rfl rfl rfl rfl
  rw [if_neg hc4] at h
  by_cases hc5 : (k == "in") = true
  · rw [if_pos hc5] at h
    exact dslIn_flagsOK f r h
  rw [if_neg hc5] at h
  by_cases hc6 : (k == "range") = true
  · rw [if_pos hc6] at h
    exact passthrough "range" (by simpa using hc6) (dslRange_ok f r h) rfl rfl rfl rfl
  rw [if_neg hc6] at h
  by_cases hc7 : (k == "regexp") = true
  · rw [if_pos hc7] at h
    exact passthrough "regexp" (by simpa using hc7) (dslRegexp_ok f r h) rfl rfl rfl rfl
  rw [if_neg hc7] at h
  by_cases hc8 : (k == "geoBoundingBox") = true
  · rw [if_pos hc8] at h
    exact dslGeoBoundingBox_flagsOK f r h
  rw [if_neg hc8] at h
  by_cases hc9 : (k == "geoDistance") = true
  · rw [if_pos hc9] at h
    exact dslGeoDistance_flagsOK f r h
  rw [if_neg hc9] at h
  by_cases hc10 : (k == "geoDistanceRange") = true
  · rw [if_pos hc10] at h
    exact dslGeoDistanceRange_flagsOK f r h
  rw [if_neg hc10] at h
  by_cases hc11 : (k == "geoPolygon") = true
  · rw [if_pos hc11] at h
    exact dslGeoPolygon_flagsOK f r h
  rw [if_neg hc11] at h
  by_cases hc12 : (k == "and") = true
  · rw [if_pos hc12] at h
    exact dslAnd_flagsOK std hstd f r h
  rw [if_neg hc12] at h
  by_cases hc13 : (k == "or") = true
  · rw [if_pos hc13] at h
    exact dslOr_flagsOK std hstd f r h
  rw [if_neg hc13] at h
  by_cases hc14 : (k == "not") = true
  · rw [if_pos hc14] at h
    exact dslNot_flagsOK std f r h
  rw [if_neg hc14] at h
  by_cases hc15 : (k == "bool") = true
  · rw [if_pos hc15] at h
    exact dslBool_nodeOK std hstd f r h
  rw [if_neg hc15] at h
  by_cases hc16 : (k == "standardize") = true
  · rw [if_pos hc16] at h
    exact hstd f r h
  rw [if_neg hc16] at h
  by_cases hc17 : (k == "_standardizeFilterArray") = true
  · rw [if_pos hc17] at h
    exact absurd h (by simp)
  rw [if_neg hc17] at h
  by_cases hc18 : (protoNames.contains k) = true
  · rw [if_pos hc18] at h
    exact absurd h (by simp)
  rw [if_neg hc18] at h
  exact absurd h (by simp)

/-- The standardization invariant: every successful `standardize` output is
a well-formed node (a plain object whose `and`/`or` arrays hold objects and
whose `_isLeaf` flags are booleans or 0/1). -/
theorem standardize_nodeOK (b : Nat) :
    ∀ (f r : JVal), standardize b f = .ok r → nodeOK r = true := by
  induction b with
  | zero => intro f r h; simp [standardize] at h
  | succ n ih =>
      intro f r h
      simp only [standardize] at h
      cases hkw : jsKeysOf f with
      | nil =>
          rw [hkw] at h
          have h2 : Except.ok (JVal.obj []) = Except.ok r := h
          have := (Except.ok.inj h2).symm
          subst this
          rw [nodeOK_obj]
          simp [flagsOK, flagsOKEntries, lookupKV, okFlagVal]
      | cons k rest =>
          cases rest with
          | nil =>
              rw [hkw] at h
              have h2 : dispatchKeyword (standardize n) k f = Except.ok r := h
              exact dispatchKeyword_nodeOK (standardize n) ih k f r hkw h2
          | cons k2 rest2 =>
              rw [hkw] at h
              have h2 : Except.error (Err.badRequest "Invalid filter syntax") = Except.ok r := h
              simp at h2


theorem nodeOK_topFlag (v : JVal) (h : nodeOK v = true) :
    okFlagVal (jlookup v "_isLeaf") = true := by
  obtain ⟨⟨kvs, hv⟩, hf⟩ := nodeOK_parts v h
  subst hv
  rw [flagsOK_obj, Bool.and_eq_true] at hf
  exact hf.1

/-- The flattening fold exactly as the specification's words describe it:
start from an empty accumulator and leaf-flag `true`; a child whose single
top-level key equals the operand has its children spliced into the
accumulator with its (truthiness-read) leaf-flag ANDed in; any other child
is appended as one element, forcing the leaf-flag to `false` when the child
is an `and`/`or` node. -/
def specFlattenStep (operand : String) (acc : List JVal × Bool) (sub : JVal) :
    List JVal × Bool :=
  match (jkeys sub).head? with
  | some k =>
      if k == operand then
        (jsConcat acc.1 (jlookup sub operand), acc.2 && truthy (jlookup sub "_isLeaf"))
      else
        (acc.1 ++ [sub], if k == "and" || k == "or" then false else acc.2)
  | none => (acc.1 ++ [sub], acc.2)

/-- The specification's unwrap rule: a single accumulated element is
returned bare, otherwise the operand node is assembled. -/
def specAssemble (operand : String) (children : List JVal) (lv : JVal) : JVal :=
  match children with
  | [c] => c
  | cs => .obj [(operand, .arr cs), ("_isLeaf", lv)]

/-- The source fold refines the specification fold: equal child lists, and
the bitmask leaf flag is truthy exactly when the specification's boolean
flag is true. -/
theorem sfaFold_spec (op : String) (subs : List JVal) :
    ∀ (acc : List JVal) (lv : JVal) (accB : Bool),
    (∀ s ∈ subs, nodeOK s = true) →
    okLeafVal lv = true → truthy lv = accB →
    (subs.foldl (sfaFoldStep op) (acc, lv)).1 =
      (subs.foldl (specFlattenStep op) (acc, accB)).1 ∧
    okLeafVal (subs.foldl (sfaFoldStep op) (acc, lv)).2 = true ∧
    truthy (subs.foldl (sfaFoldStep op) (acc, lv)).2 =
      (subs.foldl (specFlattenStep op) (acc, accB)).2 := by
  induction subs with
  | nil => intro acc lv accB _ h2 h3; exact ⟨rfl, h2, h3⟩
  | cons sub rest ih =>
      intro acc lv accB hall h2 h3
      have hsub : nodeOK sub = true := hall sub (List.mem_cons_self sub rest)
      have hrest : ∀ s ∈ rest, nodeOK s = true :=
        fun s hs => hall s (List.mem_cons_of_mem sub hs)
      simp only [List.foldl_cons]
      have hstep : (sfaFoldStep op (acc, lv) sub).1 = (specFlattenStep op (acc, accB) sub).1 ∧
          okLeafVal (sfaFoldStep op (acc, lv) sub).2 = true ∧
          truthy (sfaFoldStep op (acc, lv) sub).2 = (specFlattenStep op (acc, accB) sub).2 := by
        cases hhead : (jkeys sub).head? with
        | none =>
            simp only [sfaFoldStep, specFlattenStep, hhead]
            exact ⟨trivial, h2, h3⟩
        | some k =>
            by_cases hk : (k == op) = true
            · simp only [sfaFoldStep, specFlattenStep, hhead, hk, if_true]
              have hflag := nodeOK_topFlag sub hsub
              refine ⟨trivial, okLeafVal_jsBitAnd lv _ h2 hflag, ?_⟩
              rw [truthy_jsBitAnd lv _ h2 hflag, h3]
            · have hk' : (k == op) = false := by simpa using hk
              by_cases hor : (k == "and" || k == "or") = true
              · simp only [sfaFoldStep, specFlattenStep, hhead, hk', Bool.false_eq_true,
                  if_false, hor, if_true]
                exact ⟨trivial, rfl, rfl⟩
              · have hor' : (k == "and" || k == "or") = false := by simpa using hor
                simp only [sfaFoldStep, specFlattenStep, hhead, hk', hor',
                  Bool.false_eq_true, if_false]
                exact ⟨trivial, h2, h3⟩
      obtain ⟨e1, e2, e3⟩ := hstep
      have hrec := ih (sfaFoldStep op (acc, lv) sub).1 (sfaFoldStep op (acc, lv) sub).2
        (specFlattenStep op (acc, accB) sub).2 hrest e2 e3
      have hpair1 : sfaFoldStep op (acc, lv) sub
          = ((sfaFoldStep op (acc, lv) sub).1, (sfaFoldStep op (acc, lv) sub).2) := rfl
      have hpair2 : specFlattenStep op (acc, accB) sub
          = ((specFlattenStep op (acc, accB) sub).1, (specFlattenStep op (acc, accB) sub).2) := rfl
      rw [hpair1, hpair2, ← e1]
      exact hrec


/-- `{exists: {field: fld}}`, the leaf used in the specification's worked
examples. -/
def existsFilter (fld : String) : JVal :=
  .obj [("exists", .obj [("field", .str fld)])]

/-- Dispatching a single-key `and`/`or` filter reaches the corresponding
validator: array check, then the shared flattening. -/
theorem standardize_comb_eq (b : Nat) (op : String) (hop : op = "and" ∨ op = "or")
    (v : JVal) :
    standardize (b + 1) (.obj [(op, v)]) =
      (mustBeNonEmptyArray (.obj [(op, v)]) op op >>= fun _ =>
        standardizeFilterArray (standardize b) (.obj [(op, v)]) op) := by
  rcases hop with h | h <;> subst h <;> rfl

theorem jlookup_single (k : String) (v : JVal) :
    jlookup (.obj [(k, v)]) k = v := by
  simp [jlookup, lookupKV]

theorem sfa_arr_eq (std : JVal → Except Err JVal) (op : String) (cs : List JVal)
    (f : JVal) (hf : jlookup f op = .arr cs) (rs : List JVal)
    (hbad : findBadElem cs = .ok false)
    (hall : standardizeAll std cs = .ok rs) :
    standardizeFilterArray std f op =
      (match (rs.foldl (sfaFoldStep op) ([], .bool true)).1 with
       | [c] => Except.ok c
       | _ => Except.ok (.obj [(op, .arr (rs.foldl (sfaFoldStep op) ([], .bool true)).1),
                               ("_isLeaf", (rs.foldl (sfaFoldStep op) ([], .bool true)).2)])) := by
  unfold standardizeFilterArray
  rw [hf]
  dsimp only
  rw [hbad]
  simp only [Bind.bind, Except.bind, Bool.false_eq_true, if_false]
  rw [hall]

/-- C1: for every `and` (resp. `or`) filter whose elements pass the shape
scan and whose children all standardize successfully, standardization folds
the standardized children exactly with the flattening algorithm stated by
the specification (`specFlattenStep` starting from `([], true)`, followed by
the single-element unwrap `specAssemble`), with the code's bitmask leaf
flag truthy exactly when the specification's boolean leaf flag is true; in
particular the nested-`and` example flattens to a single `and` node with
exactly three children and a truthy leaf flag. -/
theorem C1_and_or_flattening :
    (∀ (b : Nat) (op : String) (cs rs : List JVal),
        (op = "and" ∨ op = "or") → cs ≠ [] →
        findBadElem cs = .ok false →
        standardizeAll (standardize b) cs = .ok rs →
        ∃ lv, okLeafVal lv = true ∧
          truthy lv = (rs.foldl (specFlattenStep op) ([], true)).2 ∧
          standardize (b + 1) (.obj [(op, .arr cs)]) =
            .ok (specAssemble op (rs.foldl (specFlattenStep op) ([], true)).1 lv)) ∧
    standardize 3 (.obj [("and", .arr
        [.obj [("and", .arr [existsFilter "a", existsFilter "b"])], existsFilter "c"])]) =
      .ok (.obj [("and", .arr [existsFilter "a", existsFilter "b", existsFilter "c"]),
                 ("_isLeaf", .num 1)]) ∧
    truthy (.num 1) = true := by
  refine ⟨?_, rfl, rfl⟩
  intro b op cs rs hop hne hbad hall
  have hsubs : ∀ s ∈ rs, nodeOK s = true :=
    standardizeAll_mem (standardize b) (standardize_nodeOK b) cs rs hall
  obtain ⟨e1, e2, e3⟩ := sfaFold_spec op rs [] (.bool true) true hsubs rfl rfl
  refine ⟨(rs.foldl (sfaFoldStep op) ([], .bool true)).2, e2, e3, ?_⟩
  rw [standardize_comb_eq b op hop (.arr cs)]
  have hmba : mustBeNonEmptyArray (.obj [(op, .arr cs)]) op op = .ok () := by
    unfold mustBeNonEmptyArray
    rw [jlookup_single]
    cases cs with
    | nil => exact absurd rfl hne
    | cons c rest => simp
  rw [hmba]
  simp only [Bind.bind, Except.bind]
  rw [sfa_arr_eq (standardize b) op cs _ (jlookup_single op (.arr cs)) rs hbad hall]
  rw [e1]
  cases hsp : (rs.foldl (specFlattenStep op) ([], true)).1 with
  | nil => simp [specAssemble]
  | cons c rest =>
      cases rest with
      | nil => simp [specAssemble]
      | cons c2 rest2 => simp [specAssemble]


theorem standardize_keyword_eq (b : Nat) (v : JVal) :
    (standardize (b + 1) (.obj [("ids", v)]) = dslIds (.obj [("ids", v)])) ∧
    (standardize (b + 1) (.obj [("bool", v)]) = dslBool (standardize b) (.obj [("bool", v)])) ∧
    (standardize (b + 1) (.obj [("not", v)]) = dslNot (standardize b) (.obj [("not", v)])) ∧
    (standardize (b + 1) (.obj [("geoBoundingBox", v)]) = dslGeoBoundingBox (.obj [("geoBoundingBox", v)])) ∧
    (standardize (b + 1) (.obj [("range", v)]) = dslRange (.obj [("range", v)])) := by
  refine ⟨rfl, rfl, rfl, rfl, rfl⟩

/-- All-string arrays pass the `ids`/`in` element scan. -/
theorem strArray_all_strings (vs : List String) :
    ((vs.map JVal.str).any fun v => !(jtypeof v == "string")) = false := by
  induction vs with
  | nil => rfl
  | cons x rest ih => simp [jtypeof, ih]

/-- C5: an `ids` filter with a non-empty array of strings `v1..vn`
standardizes to an `or` node whose children are, in order, the leaves
`{equals: {_id: vi}}`, with leaf flag `true`; in particular
`{ids: {values: ["a","b"]}}`. -/
theorem C5_ids_rewrite :
    (∀ (b : Nat) (vs : List String), vs ≠ [] →
        standardize (b + 1) (.obj [("ids", .obj [("values", .arr (vs.map JVal.str))])]) =
          .ok (.obj [("or", .arr (vs.map (fun v =>
                  .obj [("equals", .obj [("_id", .str v)])]))),
                ("_isLeaf", .bool true)])) ∧
    standardize 1 (.obj [("ids", .obj [("values", .arr [.str "a", .str "b"])])]) =
      .ok (.obj [("or", .arr [.obj [("equals", .obj [("_id", .str "a")])],
                              .obj [("equals", .obj [("_id", .str "b")])]]),
                 ("_isLeaf", .bool true)]) := by
  refine ⟨?_, rfl⟩
  intro b vs hne
  rw [(standardize_keyword_eq b _).1]
  have hvs : (vs.map JVal.str).isEmpty = false := by
    cases vs with
    | nil => exact absurd rfl hne
    | cons x rest => rfl
  simp only [dslIds, jlookup, lookupKV, beq_self_eq_true, if_true, mustBeNonEmptyObject,
    List.isEmpty_cons, List.map_cons, List.map_nil, Bool.false_eq_true, if_false,
    onlyOneFieldAttribute, List.length_cons, List.length_nil, requireAttribute, truthy,
    mustBeNonEmptyArray, hvs, strArray_all_strings, Bind.bind, Except.bind,
    List.map_map, Function.comp]
  norm_num


/-- C7: whenever the flattened child list of an `and`/`or` (via the shared
`_standardizeFilterArray` fold) or of a `bool` (via its `and` accumulator)
contains exactly one element, standardization returns that element bare,
without the combinator wrapper; in particular
`standardize({and: [{exists: {field: "a"}}]})` unwraps to the leaf. -/
theorem C7_singleton_unwrap :
    (∀ (b : Nat) (op : String) (cs rs : List JVal) (c : JVal),
        (op = "and" ∨ op = "or") → cs ≠ [] →
        findBadElem cs = .ok false →
        standardizeAll (standardize b) cs = .ok rs →
        (rs.foldl (sfaFoldStep op) ([], .bool true)).1 = [c] →
        standardize (b + 1) (.obj [(op, .arr cs)]) = .ok c) ∧
    (∀ (b : Nat) (fb s c : JVal),
        boolSteps (standardize b) (.obj [("bool", fb)]) = .ok s →
        jlookup s "and" = .arr [c] →
        standardize (b + 1) (.obj [("bool", fb)]) = .ok c) ∧
    standardize 2 (.obj [("and", .arr [existsFilter "a"])]) = .ok (existsFilter "a") := by
  refine ⟨?_, ?_, rfl⟩
  · intro b op cs rs c hop hne hbad hall hfold
    rw [standardize_comb_eq b op hop (.arr cs)]
    have hmba : mustBeNonEmptyArray (.obj [(op, .arr cs)]) op op = .ok () := by
      unfold mustBeNonEmptyArray
      rw [jlookup_single]
      cases cs with
      | nil => exact absurd rfl hne
      | cons c2 rest => simp
    rw [hmba]
    simp only [Bind.bind, Except.bind]
    rw [sfa_arr_eq (standardize b) op cs _ (jlookup_single op (.arr cs)) rs hbad hall]
    rw [hfold]
  · intro b fb s c hsteps hand
    rw [(standardize_keyword_eq b fb).2.1]
    unfold dslBool
    rw [hsteps]
    simp only [Bind.bind, Except.bind]
    unfold boolFinal
    rw [hand]

/-- Dispatch and field-selection prefix of `geoBoundingBox` on a
single-field filter, leaving only the encoding normalization and the
truthiness test. -/
theorem dslGeoBoundingBox_single (field : String) (box : JVal) :
    dslGeoBoundingBox (.obj [("geoBoundingBox", .obj [(field, box)])]) =
      (if !truthy (jlookup (normalizeBBox (geoLocationToCamelCase box)) "top") then
         .error (.badRequest ("Unrecognized geo-point format in \"geoBoundingBox." ++ field))
       else .ok (.obj [("geospatial", .obj [("geoBoundingBox",
               .obj [(field, normalizeBBox (geoLocationToCamelCase box))])])])) := by
  unfold dslGeoBoundingBox
  rw [show (mustBeNonEmptyObject (jlookup (JVal.obj [("geoBoundingBox",
      JVal.obj [(field, box)])]) "geoBoundingBox") "geoBoundingBox") = Except.ok [field] from rfl]
  simp only [Bind.bind, Except.bind]
  rw [show onlyOneFieldAttribute [field] "geoBoundingBox" = Except.ok [field] from rfl]
  simp only [Except.bind, List.headD]
  rw [show jlookup (JVal.obj [("geoBoundingBox", JVal.obj [(field, box)])]) "geoBoundingBox"
      = JVal.obj [(field, box)] from rfl]
  rw [jlookup_single field box]


/-- C10: a `geoBoundingBox` filter in the flat numeric encoding whose `top`
value is 0 is rejected with the unrecognized-geo-format error even though
the encoding matched, because success is decided by the truthiness of the
computed `top` attribute; in particular
`{geoBoundingBox: {loc: {top: 0, left: 2, bottom: -3, right: 4}}}`. -/
theorem C10_falsy_top_rejected :
    (∀ (b : Nat) (field : String) (l bo r : ℚ),
        standardize (b + 1) (.obj [("geoBoundingBox", .obj [(field,
            .obj [("top", .num 0), ("left", .num l),
                  ("bottom", .num bo), ("right", .num r)])])]) =
          .error (.badRequest ("Unrecognized geo-point format in \"geoBoundingBox." ++ field))) ∧
    standardize 1 (.obj [("geoBoundingBox", .obj [("loc",
        .obj [("top", .num 0), ("left", .num 2),
              ("bottom", .num (-3)), ("right", .num 4)])])]) =
      .error (.badRequest "Unrecognized geo-point format in \"geoBoundingBox.loc") := by
  refine ⟨?_, rfl⟩
  intro b field l bo r
  rw [(standardize_keyword_eq b _).2.2.2.1]
  rw [dslGeoBoundingBox_single]
  rfl

/-- C2 (failing input of the specification's `bool` example): seeding the
`bool` accumulator with the unwrapped single `must` term and then appending
the `should` disjunction reads `.and` of a leaf that has no such attribute,
so the whole standardization throws a TypeError instead of returning an
`and` node. -/
theorem C2_bool_must_should_crash :
    standardize 3 (.obj [("bool", .obj [
        ("must", .arr [existsFilter "a"]),
        ("should", .arr [existsFilter "b", existsFilter "c"])])]) =
      .error (.typeError "Cannot read property of undefined") := rfl


/-- C6 (counterexample): the flat numeric box with `top = 0` matches the
first supported encoding, yet standardization rejects it, so "for every
flat numeric box, standardization succeeds" is false as stated. -/
theorem C6_counterexample :
    standardize 1 (.obj [("geoBoundingBox", .obj [("loc",
        .obj [("top", .num 0), ("left", .num 2),
              ("bottom", .num (-3)), ("right", .num 4)])])]) =
      .error (.badRequest "Unrecognized geo-point format in \"geoBoundingBox.loc") := rfl

/-- C6 (amended): a `geoBoundingBox` filter with one document field whose
value is a flat object with numeric `top`, `left`, `bottom`, `right` and a
nonzero (truthy) `top` standardizes to the `geospatial` wrapper carrying
those same four numbers; in particular
`{geoBoundingBox: {loc: {top: 1, left: 2, bottom: 3, right: 4}}}`. -/
theorem C6_geoBoundingBox_flat :
    (∀ (b : Nat) (field : String) (t l bo r : ℚ), t ≠ 0 →
        standardize (b + 1) (.obj [("geoBoundingBox", .obj [(field,
            .obj [("top", .num t), ("left", .num l),
                  ("bottom", .num bo), ("right", .num r)])])]) =
          .ok (.obj [("geospatial", .obj [("geoBoundingBox", .obj [(field,
              .obj [("top", .num t), ("left", .num l),
                    ("bottom", .num bo), ("right", .num r)])])])])) ∧
    standardize 1 (.obj [("geoBoundingBox", .obj [("loc",
        .obj [("top", .num 1), ("left", .num 2),
              ("bottom", .num 3), ("right", .num 4)])])]) =
      .ok (.obj [("geospatial", .obj [("geoBoundingBox", .obj [("loc",
          .obj [("top", .num 1), ("left", .num 2),
                ("bottom", .num 3), ("right", .num 4)])])])]) := by
  refine ⟨?_, rfl⟩
  intro b field t l bo r ht
  rw [(standardize_keyword_eq b _).2.2.2.1]
  rw [dslGeoBoundingBox_single]
  rw [show normalizeBBox (geoLocationToCamelCase
      (JVal.obj [("top", .num t), ("left", .num l), ("bottom", .num bo), ("right", .num r)])) =
      JVal.obj [("top", .num t), ("left", .num l), ("bottom", .num bo), ("right", .num r)] from rfl]
  have htr : truthy (jlookup (JVal.obj [("top", JVal.num t), ("left", JVal.num l),
      ("bottom", JVal.num bo), ("right", JVal.num r)]) "top") = true := by
    simp [jlookup, lookupKV, truthy, ht]
  rw [htr]
  rfl


/-- C3 (counterexample): `_standardizeFilterArray` is a method of the
`Standardizer`, so the reflective lookup `this[keyword]` is truthy for it
and the unknown-keyword rejection is skipped; the call then throws a
TypeError instead. -/
theorem C3_counterexample :
    standardize 2 (.obj [("_standardizeFilterArray", .obj [("x", .num 1)])]) =
      .error (.typeError "Cannot convert undefined or null to object") ∧
    Err.typeError "Cannot convert undefined or null to object" ≠
      Err.badRequest "Unknown DSL keyword: _standardizeFilterArray" :=
  ⟨rfl, by decide⟩

/-- An undispatchable single key falls through the whole reflective lookup
chain to the unknown-keyword rejection. -/
theorem dispatch_unknown (std : JVal → Except Err JVal) (k : String) (f : JVal)
    (hd : dispatchable k = false) :
    dispatchKeyword std k f = .error (.badRequest ("Unknown DSL keyword: " ++ k)) := by
  have hx : ∀ kw : String, dispatchable kw = true → (k == kw) = false := by
    intro kw hkw
    cases heq : (k == kw) with
    | false => rfl
    | true =>
        exfalso
        have hkeq : k = kw := by simpa using heq
        rw [hkeq, hkw] at hd
        cases hd
  have hproto : protoNames.contains k = false := by
    cases hp : protoNames.contains k with
    | false => rfl
    | true =>
        exfalso
        have hdt : dispatchable k = true := by
          unfold dispatchable
          rw [hp]
          simp
        rw [hdt] at hd
        cases hd
  unfold dispatchKeyword
  rw [if_neg (by simp [hx "exists" (by decide)]),
      if_neg (by simp [hx "missing" (by decide)]),
      if_neg (by simp [hx "ids" (by decide)]),
      if_neg (by simp [hx "equals" (by decide)]),
      if_neg (by simp [hx "in" (by decide)]),
      if_neg (by simp [hx "range" (by decide)]),
      if_neg (by simp [hx "regexp" (by decide)]),
      if_neg (by simp [hx "geoBoundingBox" (by decide)]),
      if_neg (by simp [hx "geoDistance" (by decide)]),
      if_neg (by simp [hx "geoDistanceRange" (by decide)]),
      if_neg (by simp [hx "geoPolygon" (by decide)]),
      if_neg (by simp [hx "and" (by decide)]),
      if_neg (by simp [hx "or" (by decide)]),
      if_neg (by simp [hx "not" (by decide)]),
      if_neg (by simp [hx "bool" (by decide)]),
      if_neg (by simp [hx "standardize" (by decide)]),
      if_neg (by simp [hx "_standardizeFilterArray" (by decide)]),
      if_neg (by rw [hproto]; simp)]

/-- C3 (amended): `standardize` returns the empty mapping on every input
with zero JS keys; rejects every input with two or more keys with the
invalid-filter-syntax error; and rejects an input whose single key is not
reachable through the reflective method lookup — i.e. neither a DSL keyword
nor any other member visible on the `Standardizer` instance
(`standardize`, `_standardizeFilterArray`, and the inherited
`Object.prototype` members) — with the unknown-keyword error. -/
theorem C3_dispatch_behavior :
    (∀ (b : Nat) (v : JVal), jsKeysOf v = [] →
        standardize (b + 1) v = .ok (.obj [])) ∧
    (∀ (b : Nat) (v : JVal) (k1 k2 : String) (rest : List String),
        jsKeysOf v = k1 :: k2 :: rest →
        standardize (b + 1) v = .error (.badRequest "Invalid filter syntax")) ∧
    (∀ (b : Nat) (v : JVal) (k : String), jsKeysOf v = [k] →
        dispatchable k = false →
        standardize (b + 1) v = .error (.badRequest ("Unknown DSL keyword: " ++ k))) := by
  refine ⟨?_, ?_, ?_⟩
  · intro b v h
    simp only [standardize]
    rw [h]
  · intro b v k1 k2 rest h
    simp only [standardize]
    rw [h]
  · intro b v k h hd
    simp only [standardize]
    rw [h]
    exact dispatch_unknown (standardize b) k v hd

/-- C8 (counterexample): for `{not: {and: 5}}` the nested child `{and: 5}`
standardizes to one error, but the whole filter fails with `not`'s own
precheck error, which is a different message — so child errors are not
always what the combinator reports. -/
theorem C8_counterexample :
    standardize 2 (.obj [("not", .obj [("and", .num 5)])]) =
      .error (.badRequest "Attribute \"and\" in \"not\" must be an array") ∧
    standardize 2 (.obj [("and", .num 5)]) =
      .error (.badRequest "Attribute \"and\" in \"and\" must be an array") ∧
    Err.badRequest "Attribute \"and\" in \"not\" must be an array" ≠
      Err.badRequest "Attribute \"and\" in \"and\" must be an array" :=
  ⟨rfl, rfl, by decide⟩

/-- A failing element aborts the sequential standardization of an element
list at the first failure, with that element's own error. -/
theorem standardizeAll_prefix_error (std : JVal → Except Err JVal) :
    ∀ (pre : List JVal) (rs : List JVal), standardizeAll std pre = .ok rs →
    ∀ (c : JVal) (post : List JVal) (e : Err), std c = .error e →
    standardizeAll std (pre ++ c :: post) = .error e := by
  intro pre
  induction pre with
  | nil =>
      intro rs _ c post e hc
      simp only [List.nil_append]
      unfold standardizeAll
      rw [hc]
      rfl
  | cons p pre2 ih =>
      intro rs hpre c post e hc
      unfold standardizeAll at hpre
      obtain ⟨r, h1, hpre⟩ := exceptBind_ok _ _ _ hpre
      obtain ⟨rs2, h2, hpre⟩ := exceptBind_ok _ _ _ hpre
      rw [List.cons_append]
      rw [show standardizeAll std (p :: (pre2 ++ c :: post)) =
          (std p >>= fun r0 => standardizeAll std (pre2 ++ c :: post) >>= fun rs0 =>
            Except.ok (r0 :: rs0)) from rfl]
      rw [h1]
      simp only [Bind.bind, Except.bind]
      rw [ih rs2 h2 c post e hc]

theorem bind_ok_step {α β : Type} {x : Except Err α} {a : α} (h : x = .ok a)
    (g : α → Except Err β) : (x >>= g) = g a := by
  rw [h]
  rfl

theorem bind_error_step {α β : Type} {x : Except Err α} {e : Err} (h : x = .error e)
    (g : α → Except Err β) : (x >>= g) = .error e := by
  rw [h]
  rfl

/-- C8 (amended): once a combinator's own prechecks pass, a child
standardization failure aborts the whole standardization with exactly that
child's error, unwrapped — for `and`/`or` the error of the first failing
element (earlier elements having succeeded), for `not` the nested
expression's error, and for `bool` the error of its `must` clause; the
prechecks themselves (element shape, `not`'s nested-keyword check) run
before any child is standardized and may fail with their own error
first. -/
theorem C8_error_propagation :
    (∀ (b : Nat) (op : String) (pre : List JVal) (c : JVal) (post : List JVal)
        (rs : List JVal) (e : Err),
        (op = "and" ∨ op = "or") →
        findBadElem (pre ++ c :: post) = .ok false →
        standardizeAll (standardize b) pre = .ok rs →
        standardize b c = .error e →
        standardize (b + 1) (.obj [(op, .arr (pre ++ c :: post))]) = .error e) ∧
    (∀ (b : Nat) (nv : JVal) (fields : List String) (e : Err),
        mustBeNonEmptyObject nv "not" = .ok fields →
        onlyOneFieldAttribute fields "not" = .ok fields →
        notPrecheck (.obj [("not", nv)]) (fields.headD "") = .ok () →
        standardize b nv = .error e →
        standardize (b + 1) (.obj [("not", nv)]) = .error e) ∧
    (∀ (b : Nat) (fb : JVal) (fields : List String) (e : Err),
        mustBeNonEmptyObject fb "bool" = .ok fields →
        (fields.any (fun x => !(boolAttributes.contains x))) = false →
        truthy (jlookup fb "must") = true →
        dslAnd (standardize b) (.obj [("and", jlookup fb "must")]) = .error e →
        standardize (b + 1) (.obj [("bool", fb)]) = .error e) := by
  refine ⟨?_, ?_, ?_⟩
  · intro b op pre c post rs e hop hbad hpre hc
    rw [standardize_comb_eq b op hop (.arr (pre ++ c :: post))]
    have hmba : mustBeNonEmptyArray (.obj [(op, .arr (pre ++ c :: post))]) op op = .ok () := by
      unfold mustBeNonEmptyArray
      rw [jlookup_single]
      cases pre <;> simp
    rw [bind_ok_step hmba]
    unfold standardizeFilterArray
    rw [jlookup_single]
    dsimp only
    rw [bind_ok_step hbad]
    rw [if_neg (by simp)]
    rw [bind_error_step (standardizeAll_prefix_error (standardize b) pre rs hpre c post e hc)]
  · intro b nv fields e h1 h2 h3 hc
    rw [(standardize_keyword_eq b nv).2.2.1]
    unfold dslNot
    rw [show jlookup (JVal.obj [("not", nv)]) "not" = nv from rfl]
    rw [bind_ok_step h1]
    rw [bind_ok_step h2]
    rw [bind_ok_step h3]
    rw [bind_error_step hc]
  · intro b fb fields e h1 h2 h3 hc
    rw [(standardize_keyword_eq b fb).2.1]
    unfold dslBool boolSteps
    rw [show jlookup (JVal.obj [("bool", fb)]) "bool" = fb from rfl]
    rw [bind_ok_step h1]
    rw [h2]
    rw [if_neg (by simp)]
    have hmust : boolStepMust (standardize b) fb = .error e := by
      unfold boolStepMust
      rw [h3]
      rw [if_pos rfl]
      exact hc
    rw [bind_error_step (bind_error_step hmust _)]



/-- First value bound to key `k` of `vals` when it is numeric; used to state
what the `range` scan resolves a bound to. -/
def numOf (vals : JVal) (k : String) : Option ℚ :=
  match jlookup vals k with
  | .num q => some q
  | _ => none

/-- `Option` choice: keep the first value when present. -/
def optOr {α : Type} : Option α → Option α → Option α
  | some a, _ => some a
  | none, b => b

/-- Modelled from the spec: the resolved upper bound of a `range` field
object — the value of its `lt*` bound if any, `+Infinity` (here `none`)
otherwise. -/
def specResolvedHigh (entries : List (String × JVal)) : Option ℚ :=
  match (entries.filter (fun p => strStartsWith p.1 "lt")).head? with
  | some (_, .num q) => some q
  | _ => none

/-- Modelled from the spec: the resolved lower bound of a `range` field
object — the value of its `gt*` bound if any, `-Infinity` (here `none`)
otherwise. -/
def specResolvedLow (entries : List (String × JVal)) : Option ℚ :=
  match (entries.filter (fun p => strStartsWith p.1 "gt")).head? with
  | some (_, .num q) => some q
  | _ => none

/-- A recorded duplicate-bound error of the `range` scan. -/
def dupErrP (f : String) (er : Option Err) : Prop :=
  ∃ e, er = some e ∧ (e = upperBoundErr f ∨ e = lowerBoundErr f)

theorem numOf_spec (vals : JVal) (k : String) (hs : (numOf vals k).isSome = true) :
    ∃ q, jlookup vals k = JVal.num q ∧ numOf vals k = some q := by
  unfold numOf at hs ⊢
  cases hj : jlookup vals k <;> rw [hj] at hs <;> simp_all

theorem no_double_pre (k : String)
    (h1 : strStartsWith k "lt" = true) (h2 : strStartsWith k "gt" = true) : False := by
  unfold strStartsWith at h1 h2
  have e1 := eq_of_beq h1
  have e2 := eq_of_beq h2
  rw [show ("lt".data.length) = 2 from rfl, show ("lt".data) = (['l', 't'] : List Char) from rfl] at e1
  rw [show ("gt".data.length) = 2 from rfl, show ("gt".data) = (['g', 't'] : List Char) from rfl] at e2
  rw [e1] at e2
  exact absurd e2 (by decide)

theorem rangeScanUpper_low (f : String) (vals : JVal) (k : String)
    (h l : Option ℚ) (er : Option Err) :
    (rangeScanUpper f vals k (h, l, er)).2.1 = l := by
  unfold rangeScanUpper
  split
  · split
    · rfl
    · split <;> rfl
  · rfl

theorem rangeScanLower_high (f : String) (vals : JVal) (k : String)
    (h l : Option ℚ) (er : Option Err) :
    (rangeScanLower f vals k (h, l, er)).1 = h := by
  unfold rangeScanLower
  split
  · split
    · rfl
    · split <;> rfl
  · rfl

theorem rangeScanUpper_high_mono (f : String) (vals : JVal) (k : String)
    (h l : Option ℚ) (er : Option Err) (hh : h.isSome = true) :
    ((rangeScanUpper f vals k (h, l, er)).1).isSome = true := by
  unfold rangeScanUpper
  cases h with
  | none => simp at hh
  | some hq =>
      split
      · rfl
      · exact hh

theorem rangeScanLower_low_mono (f : String) (vals : JVal) (k : String)
    (h l : Option ℚ) (er : Option Err) (hl : l.isSome = true) :
    ((rangeScanLower f vals k (h, l, er)).2.1).isSome = true := by
  unfold rangeScanLower
  cases l with
  | none => simp at hl
  | some lq =>
      split
      · rfl
      · exact hl

theorem rangeScanUpper_err (f : String) (vals : JVal) (k : String)
    (h l : Option ℚ) (er : Option Err) :
    (rangeScanUpper f vals k (h, l, er)).2.2 = er ∨
      (rangeScanUpper f vals k (h, l, er)).2.2 = some (upperBoundErr f) := by
  unfold rangeScanUpper
  split
  · split
    · right; rfl
    · split
      · left; rfl
      · left; rfl
  · left; rfl

theorem rangeScanLower_err (f : String) (vals : JVal) (k : String)
    (h l : Option ℚ) (er : Option Err) :
    (rangeScanLower f vals k (h, l, er)).2.2 = er ∨
      (rangeScanLower f vals k (h, l, er)).2.2 = some (lowerBoundErr f) := by
  unfold rangeScanLower
  split
  · split
    · right; rfl
    · split
      · left; rfl
      · left; rfl
  · left; rfl

theorem rangeScan_err_mono (f : String) (vals : JVal) (keys : List String) :
    ∀ st, dupErrP f st.2.2 → dupErrP f ((rangeScan f vals keys st).2.2) := by
  induction keys with
  | nil => exact fun st hp => hp
  | cons k rest ih =>
      intro st hp
      obtain ⟨h, l, er⟩ := st
      rw [rangeScan]
      apply ih
      rcases hu : rangeScanUpper f vals k (h, l, er) with ⟨h1, l1, er1⟩
      have hU := rangeScanUpper_err f vals k h l er
      rw [hu] at hU
      rcases rangeScanLower_err f vals k h1 l1 er1 with hL | hL
      · rw [hL]
        rcases hU with hU | hU
        · have hU2 : er1 = er := hU
          rw [hU2]; exact hp
        · have hU2 : er1 = some (upperBoundErr f) := hU
          rw [hU2]; exact ⟨_, rfl, Or.inl rfl⟩
      · rw [hL]; exact ⟨_, rfl, Or.inr rfl⟩

theorem rangeScan_high_mono (f : String) (vals : JVal) (keys : List String) :
    ∀ st, st.1.isSome = true → ((rangeScan f vals keys st).1).isSome = true := by
  induction keys with
  | nil => exact fun st hs => hs
  | cons k rest ih =>
      intro st hs
      obtain ⟨h, l, er⟩ := st
      rw [rangeScan]
      apply ih
      rcases hu : rangeScanUpper f vals k (h, l, er) with ⟨h1, l1, er1⟩
      rw [rangeScanLower_high f vals k h1 l1 er1]
      have := rangeScanUpper_high_mono f vals k h l er hs
      rw [hu] at this
      exact this

theorem rangeScan_upper_dup (f : String) (vals : JVal) (keys : List String) :
    ∀ st, st.1.isSome = true → (∃ k ∈ keys, strStartsWith k "lt" = true) →
      dupErrP f ((rangeScan f vals keys st).2.2) := by
  induction keys with
  | nil => rintro st _ ⟨w, hw, _⟩; exact absurd hw (List.not_mem_nil w)
  | cons k rest ih =>
      rintro st hs ⟨w, hw, hwlt⟩
      obtain ⟨h, l, er⟩ := st
      rw [rangeScan]
      rcases List.mem_cons.mp hw with hwk | hwr
      · subst hwk
        cases h with
        | none => simp at hs
        | some hq =>
            have hu : rangeScanUpper f vals w (some hq, l, er) =
                (some hq, l, some (upperBoundErr f)) := by
              unfold rangeScanUpper
              rw [if_pos hwlt]
            apply rangeScan_err_mono
            rw [hu]
            rcases rangeScanLower_err f vals w (some hq) l (some (upperBoundErr f)) with hL | hL
            · rw [hL]; exact ⟨_, rfl, Or.inl rfl⟩
            · rw [hL]; exact ⟨_, rfl, Or.inr rfl⟩
      · apply ih _ _ ⟨w, hwr, hwlt⟩
        rcases hu : rangeScanUpper f vals k (h, l, er) with ⟨h1, l1, er1⟩
        rw [rangeScanLower_high f vals k h1 l1 er1]
        have := rangeScanUpper_high_mono f vals k h l er hs
        rw [hu] at this
        exact this

theorem rangeScan_lower_dup (f : String) (vals : JVal) (keys : List String) :
    ∀ st, st.2.1.isSome = true → (∃ k ∈ keys, strStartsWith k "gt" = true) →
      dupErrP f ((rangeScan f vals keys st).2.2) := by
  induction keys with
  | nil => rintro st _ ⟨w, hw, _⟩; exact absurd hw (List.not_mem_nil w)
  | cons k rest ih =>
      rintro st hs ⟨w, hw, hwgt⟩
      obtain ⟨h, l, er⟩ := st
      rw [rangeScan]
      rcases List.mem_cons.mp hw with hwk | hwr
      · subst hwk
        cases l with
        | none => simp at hs
        | some lq =>
            have hwlt : strStartsWith w "lt" = false := by
              cases hcl : strStartsWith w "lt"
              · rfl
              · exact absurd (no_double_pre w hcl hwgt) not_false
            have hu : rangeScanUpper f vals w (h, some lq, er) = (h, some lq, er) := by
              unfold rangeScanUpper
              rw [if_neg (by simp [hwlt])]
            have hl2 : rangeScanLower f vals w (h, some lq, er) =
                (h, some lq, some (lowerBoundErr f)) := by
              unfold rangeScanLower
              rw [if_pos hwgt]
            rw [hu, hl2]
            apply rangeScan_err_mono
            exact ⟨_, rfl, Or.inr rfl⟩
      · apply ih _ _ ⟨w, hwr, hwgt⟩
        rcases hu : rangeScanUpper f vals k (h, l, er) with ⟨h1, l1, er1⟩
        have hl1 : l1 = l := by
          have := rangeScanUpper_low f vals k h l er
          rw [hu] at this
          exact this
        have := rangeScanLower_low_mono f vals k h1 l1 er1 (by rw [hl1]; exact hs)
        exact this

theorem rangeScan_two_upper (f : String) (vals : JVal) (keys : List String) :
    ∀ st, (∀ k ∈ keys, strStartsWith k "lt" = true → ∃ q, jlookup vals k = JVal.num q) →
      "lt" ∈ keys → "lte" ∈ keys → dupErrP f ((rangeScan f vals keys st).2.2) := by
  induction keys with
  | nil => intro st _ h1 _; exact absurd h1 (List.not_mem_nil _)
  | cons k rest ih =>
      intro st hnum h1 h2
      obtain ⟨h, l, er⟩ := st
      cases h with
      | some hq =>
          exact rangeScan_upper_dup f vals (k :: rest) (some hq, l, er) rfl ⟨"lt", h1, by decide⟩
      | none =>
          by_cases hklt : strStartsWith k "lt" = true
          · obtain ⟨q, hq⟩ := hnum k (List.mem_cons_self k rest) hklt
            rw [rangeScan]
            have hu : rangeScanUpper f vals k (none, l, er) = (some q, l, er) := by
              unfold rangeScanUpper
              rw [if_pos hklt]
              dsimp only
              rw [hq]
            rw [hu]
            rcases hl2 : rangeScanLower f vals k (some q, l, er) with ⟨h2at, l2, er2⟩
            have hh2 : h2at = some q := by
              have := rangeScanLower_high f vals k (some q) l er
              rw [hl2] at this
              exact this
            subst hh2
            have hup : ∃ w ∈ rest, strStartsWith w "lt" = true := by
              by_cases hke : k = "lt"
              · refine ⟨"lte", ?_, by decide⟩
                rcases List.mem_cons.mp h2 with hc | hc
                · rw [hke] at hc; exact absurd hc (by decide)
                · exact hc
              · refine ⟨"lt", ?_, by decide⟩
                rcases List.mem_cons.mp h1 with hc | hc
                · exact absurd hc.symm hke
                · exact hc
            exact rangeScan_upper_dup f vals rest (some q, l2, er2) rfl hup
          · have h1r : "lt" ∈ rest := by
              rcases List.mem_cons.mp h1 with hc | hc
              · rw [← hc] at hklt; exact absurd (by decide) hklt
              · exact hc
            have h2r : "lte" ∈ rest := by
              rcases List.mem_cons.mp h2 with hc | hc
              · rw [← hc] at hklt; exact absurd (by decide) hklt
              · exact hc
            rw [rangeScan]
            exact ih _ (fun w hw hwlt => hnum w (List.mem_cons_of_mem k hw) hwlt) h1r h2r

theorem rangeScan_two_lower (f : String) (vals : JVal) (keys : List String) :
    ∀ st, (∀ k ∈ keys, strStartsWith k "gt" = true → ∃ q, jlookup vals k = JVal.num q) →
      "gt" ∈ keys → "gte" ∈ keys → dupErrP f ((rangeScan f vals keys st).2.2) := by
  induction keys with
  | nil => intro st _ h1 _; exact absurd h1 (List.not_mem_nil _)
  | cons k rest ih =>
      intro st hnum h1 h2
      obtain ⟨h, l, er⟩ := st
      cases l with
      | some lq =>
          exact rangeScan_lower_dup f vals (k :: rest) (h, some lq, er) rfl ⟨"gt", h1, by decide⟩
      | none =>
          by_cases hkgt : strStartsWith k "gt" = true
          · obtain ⟨q, hq⟩ := hnum k (List.mem_cons_self k rest) hkgt
            have hklt : strStartsWith k "lt" = false := by
              cases hcl : strStartsWith k "lt"
              · rfl
              · exact absurd (no_double_pre k hcl hkgt) not_false
            rw [rangeScan]
            have hu : rangeScanUpper f vals k (h, none, er) = (h, none, er) := by
              unfold rangeScanUpper
              rw [if_neg (by simp [hklt])]
            have hl2 : rangeScanLower f vals k (h, none, er) = (h, some q, er) := by
              unfold rangeScanLower
              rw [if_pos hkgt]
              dsimp only
              rw [hq]
            rw [hu, hl2]
            have hup : ∃ w ∈ rest, strStartsWith w "gt" = true := by
              by_cases hke : k = "gt"
              · refine ⟨"gte", ?_, by decide⟩
                rcases List.mem_cons.mp h2 with hc | hc
                · rw [hke] at hc; exact absurd hc (by decide)
                · exact hc
              · refine ⟨"gt", ?_, by decide⟩
                rcases List.mem_cons.mp h1 with hc | hc
                · exact absurd hc.symm hke
                · exact hc
            exact rangeScan_lower_dup f vals rest (h, some q, er) rfl hup
          · have h1r : "gt" ∈ rest := by
              rcases List.mem_cons.mp h1 with hc | hc
              · rw [← hc] at hkgt; exact absurd (by decide) hkgt
              · exact hc
            have h2r : "gte" ∈ rest := by
              rcases List.mem_cons.mp h2 with hc | hc
              · rw [← hc] at hkgt; exact absurd (by decide) hkgt
              · exact hc
            rw [rangeScan]
            exact ih _ (fun w hw hwgt => hnum w (List.mem_cons_of_mem k hw) hwgt) h1r h2r

theorem rangeScan_clean (f : String) (vals : JVal) (keys : List String) :
    ∀ (h l : Option ℚ),
      (∀ k ∈ keys, (numOf vals k).isSome = true) →
      ((keys.filter (fun k => strStartsWith k "lt")).length +
        (if h.isSome then 1 else 0) ≤ 1) →
      ((keys.filter (fun k => strStartsWith k "gt")).length +
        (if l.isSome then 1 else 0) ≤ 1) →
      rangeScan f vals keys (h, l, none) =
        (optOr h (((keys.filter (fun k => strStartsWith k "lt")).head?).bind (numOf vals)),
         optOr l (((keys.filter (fun k => strStartsWith k "gt")).head?).bind (numOf vals)),
         none) := by
  induction keys with
  | nil =>
      intro h l _ _ _
      cases h <;> cases l <;> rfl
  | cons k rest ih =>
      intro h l hnum hu hl
      rw [rangeScan]
      by_cases hklt : strStartsWith k "lt" = true
      · have hkgt : strStartsWith k "gt" = false := by
          cases hcg : strStartsWith k "gt"
          · rfl
          · exact absurd (no_double_pre k hklt hcg) not_false
        rw [List.filter_cons, if_pos hklt, List.length_cons] at hu
        rw [List.filter_cons, if_neg (by simp [hkgt])] at hl
        cases h with
        | some hq =>
            exfalso
            simp only [Option.isSome_some, if_pos] at hu
            omega
        | none =>
            obtain ⟨q, hjq, hnq⟩ := numOf_spec vals k (hnum k (List.mem_cons_self k rest))
            have hstep1 : rangeScanUpper f vals k (none, l, none) = (some q, l, none) := by
              unfold rangeScanUpper
              rw [if_pos hklt]
              dsimp only
              rw [hjq]
            have hstep2 : rangeScanLower f vals k (some q, l, none) = (some q, l, none) := by
              unfold rangeScanLower
              rw [if_neg (by simp [hkgt])]
            rw [hstep1, hstep2]
            have hfu : rest.filter (fun k => strStartsWith k "lt") = [] := by
              simp only [Option.isSome_none, if_neg] at hu
              refine List.length_eq_zero.mp ?_
              omega
            rw [ih (some q) l (fun w hw => hnum w (List.mem_cons_of_mem k hw))
              (by rw [hfu]; simp) hl]
            rw [List.filter_cons, List.filter_cons, if_pos hklt,
              if_neg (by simp [hkgt]), hfu]
            simp [optOr, hnq]
      · by_cases hkgt : strStartsWith k "gt" = true
        · rw [List.filter_cons, if_pos hkgt, List.length_cons] at hl
          rw [List.filter_cons, if_neg (by simp [hklt])] at hu
          cases l with
          | some lq =>
              exfalso
              simp only [Option.isSome_some, if_pos] at hl
              omega
          | none =>
              obtain ⟨q, hjq, hnq⟩ := numOf_spec vals k (hnum k (List.mem_cons_self k rest))
              have hstep1 : rangeScanUpper f vals k (h, none, none) = (h, none, none) := by
                unfold rangeScanUpper
                rw [if_neg (by simp [hklt])]
              have hstep2 : rangeScanLower f vals k (h, none, none) = (h, some q, none) := by
                unfold rangeScanLower
                rw [if_pos hkgt]
                dsimp only
                rw [hjq]
              rw [hstep1, hstep2]
              have hfl : rest.filter (fun k => strStartsWith k "gt") = [] := by
                simp only [Option.isSome_none, if_neg] at hl
                refine List.length_eq_zero.mp ?_
                omega
              rw [ih h (some q) (fun w hw => hnum w (List.mem_cons_of_mem k hw)) hu
                (by rw [hfl]; simp)]
              rw [List.filter_cons, List.filter_cons, if_pos hkgt,
                if_neg (by simp [hklt]), hfl]
              simp [optOr, hnq]
        · have hstep1 : rangeScanUpper f vals k (h, l, none) = (h, l, none) := by
            unfold rangeScanUpper
            rw [if_neg (by simp [hklt])]
          have hstep2 : rangeScanLower f vals k (h, l, none) = (h, l, none) := by
            unfold rangeScanLower
            rw [if_neg (by simp [hkgt])]
          rw [hstep1, hstep2]
          rw [List.filter_cons, if_neg (by simp [hklt])] at hu
          rw [List.filter_cons, if_neg (by simp [hkgt])] at hl
          rw [ih h l (fun w hw => hnum w (List.mem_cons_of_mem k hw)) hu hl]
          rw [List.filter_cons, List.filter_cons, if_neg (by simp [hklt]),
            if_neg (by simp [hkgt])]

theorem filter_map_fst (p : String → Bool) (l : List (String × JVal)) :
    (l.map Prod.fst).filter p = (l.filter (fun e => p e.1)).map Prod.fst := by
  induction l with
  | nil => rfl
  | cons e rest ih =>
      simp only [List.map_cons, List.filter_cons]
      by_cases hp : p e.1 = true
      · simp [hp, ih]
      · simp [hp, ih]

theorem lookupKV_mem (entries : List (String × JVal)) :
    ∀ k, k ∈ entries.map Prod.fst → ∃ e, e ∈ entries ∧ lookupKV entries k = e.2 := by
  induction entries with
  | nil => intro k hk; simp at hk
  | cons p rest ih =>
      intro k hk
      obtain ⟨pk, pv⟩ := p
      by_cases hpk : (pk == k) = true
      · refine ⟨(pk, pv), List.mem_cons_self _ _, ?_⟩
        show (if pk == k then pv else lookupKV rest k) = pv
        rw [if_pos hpk]
      · rw [List.map_cons] at hk
        have hk2 : k ∈ rest.map Prod.fst := by
          rcases List.mem_cons.mp hk with hc | hc
          · exact absurd (beq_iff_eq.mpr hc.symm) hpk
          · exact hc
        obtain ⟨e, he, hlk⟩ := ih k hk2
        refine ⟨e, List.mem_cons_of_mem _ he, ?_⟩
        show (if pk == k then pv else lookupKV rest k) = e.2
        rw [if_neg hpk, hlk]

theorem lookupKV_nodup (entries : List (String × JVal))
    (hnd : (entries.map Prod.fst).Nodup) :
    ∀ e ∈ entries, lookupKV entries e.1 = e.2 := by
  induction entries with
  | nil => intro e he; exact absurd he (List.not_mem_nil e)
  | cons p rest ih =>
      intro e he
      rw [List.map_cons] at hnd
      obtain ⟨pk, pv⟩ := p
      rcases List.mem_cons.mp he with he1 | he2
      · subst he1
        show (if pk == pk then pv else lookupKV rest pk) = pv
        simp
      · have hne : pk ≠ e.1 := by
          intro heq
          apply (List.nodup_cons.mp hnd).1
          rw [heq]
          exact List.mem_map.mpr ⟨e, he2, rfl⟩
        show (if pk == e.1 then pv else lookupKV rest e.1) = e.2
        rw [if_neg (by simp [hne])]
        exact ih (List.nodup_cons.mp hnd).2 e he2

theorem resolvedHigh_eq (entries : List (String × JVal))
    (hnd : (entries.map Prod.fst).Nodup) :
    ((entries.map Prod.fst).filter (fun k => strStartsWith k "lt")).head?.bind
      (numOf (JVal.obj entries)) = specResolvedHigh entries := by
  rw [filter_map_fst]
  unfold specResolvedHigh
  rcases hfl : (entries.filter (fun p => strStartsWith p.1 "lt")).head? with _ | e
  · rw [List.head?_map, hfl]
    rfl
  · rw [List.head?_map, hfl]
    obtain ⟨e1, e2⟩ := e
    have hmf : (e1, e2) ∈ entries.filter (fun p => strStartsWith p.1 "lt") :=
      List.mem_of_mem_head? (by rw [hfl]; exact Option.mem_some_iff.mpr rfl)
    have hemem : (e1, e2) ∈ entries := List.mem_of_mem_filter hmf
    have hlk : lookupKV entries e1 = e2 := lookupKV_nodup entries hnd (e1, e2) hemem
    cases e2 <;> simp [numOf, jlookup, hlk]

theorem resolvedLow_eq (entries : List (String × JVal))
    (hnd : (entries.map Prod.fst).Nodup) :
    ((entries.map Prod.fst).filter (fun k => strStartsWith k "gt")).head?.bind
      (numOf (JVal.obj entries)) = specResolvedLow entries := by
  rw [filter_map_fst]
  unfold specResolvedLow
  rcases hfl : (entries.filter (fun p => strStartsWith p.1 "gt")).head? with _ | e
  · rw [List.head?_map, hfl]
    rfl
  · rw [List.head?_map, hfl]
    obtain ⟨e1, e2⟩ := e
    have hmf : (e1, e2) ∈ entries.filter (fun p => strStartsWith p.1 "gt") :=
      List.mem_of_mem_head? (by rw [hfl]; exact Option.mem_some_iff.mpr rfl)
    have hemem : (e1, e2) ∈ entries := List.mem_of_mem_filter hmf
    have hlk : lookupKV entries e1 = e2 := lookupKV_nodup entries hnd (e1, e2) hemem
    cases e2 <;> simp [numOf, jlookup, hlk]

theorem nodup_two_val_len (a b : String) (l : List String) (hnd : l.Nodup)
    (hall : ∀ x ∈ l, x = a ∨ x = b) (hnot : ¬(a ∈ l ∧ b ∈ l)) : l.length ≤ 1 := by
  rcases l with _ | ⟨x, _ | ⟨y, t⟩⟩
  · simp
  · simp
  · exfalso
    have hxy : x ≠ y := by
      intro he
      exact (List.nodup_cons.mp hnd).1 (he ▸ List.mem_cons_self y t)
    rcases hall x (by simp) with hx | hx <;> rcases hall y (by simp) with hy | hy
    · exact hxy (hx.trans hy.symm)
    · refine hnot ⟨?_, ?_⟩
      · rw [← hx]; exact List.mem_cons_self x (y :: t)
      · rw [← hy]; exact List.mem_cons_of_mem x (List.mem_cons_self y t)
    · refine hnot ⟨?_, ?_⟩
      · rw [← hy]; exact List.mem_cons_of_mem x (List.mem_cons_self y t)
      · rw [← hx]; exact List.mem_cons_self x (y :: t)
    · exact hxy (hx.trans hy.symm)

theorem dslRange_eq (f : String) (entries : List (String × JVal))
    (hne : entries ≠ [])
    (hwl : ∀ k ∈ entries.map Prod.fst, k ∈ (["gt", "lt", "gte", "lte"] : List String))
    (hnum : ∀ p ∈ entries, ∃ q : ℚ, p.2 = JVal.num q) :
    dslRange (JVal.obj [("range", JVal.obj [(f, JVal.obj entries)])]) =
      rangeDecide f (JVal.obj [("range", JVal.obj [(f, JVal.obj entries)])])
        (rangeScan f (JVal.obj entries) (entries.map Prod.fst) (none, none, none)) := by
  have hemp : entries.isEmpty = false := by
    cases entries with
    | nil => exact absurd rfl hne
    | cons p rest => rfl
  unfold dslRange
  rw [show jlookup (JVal.obj [("range", JVal.obj [(f, JVal.obj entries)])]) "range" =
    JVal.obj [(f, JVal.obj entries)] from rfl]
  rw [bind_ok_step (show mustBeNonEmptyObject (JVal.obj [(f, JVal.obj entries)]) "range" =
    Except.ok [f] from rfl)]
  rw [bind_ok_step (show onlyOneFieldAttribute [f] "range" = Except.ok [f] from rfl)]
  dsimp only
  rw [show List.headD [f] "" = f from rfl]
  rw [jlookup_single]
  have hobj : mustBeNonEmptyObject (JVal.obj entries) ("range." ++ f) =
      Except.ok (entries.map Prod.fst) := by
    unfold mustBeNonEmptyObject
    dsimp only
    rw [hemp]
    rfl
  rw [bind_ok_step hobj]
  have hany : (entries.map Prod.fst).any
      (fun v => !((["gt", "lt", "gte", "lte"] : List String).contains v)) = false := by
    rw [List.any_eq_false]
    intro x hx
    simp [hwl x hx]
  rw [hany]
  rw [if_neg (by simp)]
  have hfind : (entries.map Prod.fst).find?
      (fun v => !(jtypeof (jlookup (JVal.obj entries) v) == "number")) = none := by
    rw [List.find?_eq_none]
    intro x hx
    obtain ⟨e, he, hlk⟩ := lookupKV_mem entries x hx
    obtain ⟨q, hq⟩ := hnum e he
    rw [show jlookup (JVal.obj entries) x = lookupKV entries x from rfl, hlk, hq]
    simp [jtypeof]
  rw [hfind]

theorem optOr_none (b : Option ℚ) : optOr none b = b := rfl

theorem entries_numOf (entries : List (String × JVal))
    (hnum : ∀ p ∈ entries, ∃ q : ℚ, p.2 = JVal.num q) :
    ∀ k ∈ entries.map Prod.fst, (numOf (JVal.obj entries) k).isSome = true := by
  intro k hk
  obtain ⟨e, he, hlk⟩ := lookupKV_mem entries k hk
  obtain ⟨q, hq⟩ := hnum e he
  unfold numOf
  rw [show jlookup (JVal.obj entries) k = lookupKV entries k from rfl, hlk, hq]
  rfl

theorem entries_jnum (entries : List (String × JVal))
    (hnum : ∀ p ∈ entries, ∃ q : ℚ, p.2 = JVal.num q) :
    ∀ k ∈ entries.map Prod.fst, ∃ q, jlookup (JVal.obj entries) k = JVal.num q := by
  intro k hk
  obtain ⟨e, he, hlk⟩ := lookupKV_mem entries k hk
  obtain ⟨q, hq⟩ := hnum e he
  exact ⟨q, by rw [show jlookup (JVal.obj entries) k = lookupKV entries k from rfl, hlk, hq]⟩

theorem whitelist_filter_len_lt (keys : List String) (hnd : keys.Nodup)
    (hwl : ∀ k ∈ keys, k ∈ (["gt", "lt", "gte", "lte"] : List String))
    (hnot : ¬("lt" ∈ keys ∧ "lte" ∈ keys)) :
    (keys.filter (fun k => strStartsWith k "lt")).length ≤ 1 := by
  apply nodup_two_val_len "lt" "lte"
  · exact hnd.filter _
  · intro x hx
    have hxp := List.of_mem_filter hx
    have h4 := hwl x (List.mem_of_mem_filter hx)
    simp only [List.mem_cons, List.not_mem_nil, or_false] at h4
    rcases h4 with h | h | h | h
    · rw [h] at hxp; exact absurd hxp (by decide)
    · exact Or.inl h
    · rw [h] at hxp; exact absurd hxp (by decide)
    · exact Or.inr h
  · intro hab
    exact hnot ⟨List.mem_of_mem_filter hab.1, List.mem_of_mem_filter hab.2⟩

theorem whitelist_filter_len_gt (keys : List String) (hnd : keys.Nodup)
    (hwl : ∀ k ∈ keys, k ∈ (["gt", "lt", "gte", "lte"] : List String))
    (hnot : ¬("gt" ∈ keys ∧ "gte" ∈ keys)) :
    (keys.filter (fun k => strStartsWith k "gt")).length ≤ 1 := by
  apply nodup_two_val_len "gt" "gte"
  · exact hnd.filter _
  · intro x hx
    have hxp := List.of_mem_filter hx
    have h4 := hwl x (List.mem_of_mem_filter hx)
    simp only [List.mem_cons, List.not_mem_nil, or_false] at h4
    rcases h4 with h | h | h | h
    · exact Or.inl h
    · rw [h] at hxp; exact absurd hxp (by decide)
    · exact Or.inr h
    · rw [h] at hxp; exact absurd hxp (by decide)
  · intro hab
    exact hnot ⟨List.mem_of_mem_filter hab.1, List.mem_of_mem_filter hab.2⟩

theorem dslRange_clean (f : String) (entries : List (String × JVal))
    (hne : entries ≠ [])
    (hwl : ∀ k ∈ entries.map Prod.fst, k ∈ (["gt", "lt", "gte", "lte"] : List String))
    (hnum : ∀ p ∈ entries, ∃ q : ℚ, p.2 = JVal.num q)
    (hnd : (entries.map Prod.fst).Nodup)
    (hnotU : ¬("lt" ∈ entries.map Prod.fst ∧ "lte" ∈ entries.map Prod.fst))
    (hnotL : ¬("gt" ∈ entries.map Prod.fst ∧ "gte" ∈ entries.map Prod.fst)) :
    dslRange (JVal.obj [("range", JVal.obj [(f, JVal.obj entries)])]) =
      rangeDecide f (JVal.obj [("range", JVal.obj [(f, JVal.obj entries)])])
        (specResolvedHigh entries, specResolvedLow entries, none) := by
  rw [dslRange_eq f entries hne hwl hnum]
  rw [rangeScan_clean f (JVal.obj entries) (entries.map Prod.fst) none none
    (entries_numOf entries hnum)
    (by simpa using whitelist_filter_len_lt _ hnd hwl hnotU)
    (by simpa using whitelist_filter_len_gt _ hnd hwl hnotL)]
  rw [optOr_none, optOr_none, resolvedHigh_eq entries hnd, resolvedLow_eq entries hnd]

/-- C4: for a `range` filter with a single field whose bound object uses only
`gt`/`gte`/`lt`/`lte` keys with numeric values, validation fails with a
duplicate-boundary error when both `lt` and `lte` (or both `gt` and `gte`)
are present; otherwise, with the upper bound resolved from the `lt*` key
(default `+Infinity`) and the lower bound from the `gt*` key (default
`-Infinity`), it fails with the bound-ordering error when `high ≤ low` and
returns the filter unchanged otherwise; in particular
`standardize({range:{age:{gt:10,lt:5}}})` fails with the ordering error and
`standardize({range:{age:{gte:0,lte:120}}})` succeeds unchanged. -/
theorem C4_range :
    (∀ (f : String) (entries : List (String × JVal)),
        entries ≠ [] →
        (∀ k ∈ entries.map Prod.fst, k ∈ (["gt", "lt", "gte", "lte"] : List String)) →
        (∀ p ∈ entries, ∃ q : ℚ, p.2 = JVal.num q) →
        (("lt" ∈ entries.map Prod.fst ∧ "lte" ∈ entries.map Prod.fst) ∨
         ("gt" ∈ entries.map Prod.fst ∧ "gte" ∈ entries.map Prod.fst)) →
        ∃ e, dslRange (JVal.obj [("range", JVal.obj [(f, JVal.obj entries)])]) =
            Except.error e ∧ (e = upperBoundErr f ∨ e = lowerBoundErr f)) ∧
    (∀ (f : String) (entries : List (String × JVal)),
        entries ≠ [] →
        (∀ k ∈ entries.map Prod.fst, k ∈ (["gt", "lt", "gte", "lte"] : List String)) →
        (∀ p ∈ entries, ∃ q : ℚ, p.2 = JVal.num q) →
        (entries.map Prod.fst).Nodup →
        ¬("lt" ∈ entries.map Prod.fst ∧ "lte" ∈ entries.map Prod.fst) →
        ¬("gt" ∈ entries.map Prod.fst ∧ "gte" ∈ entries.map Prod.fst) →
        ∀ hq lq, specResolvedHigh entries = some hq → specResolvedLow entries = some lq →
          hq ≤ lq →
          dslRange (JVal.obj [("range", JVal.obj [(f, JVal.obj entries)])]) =
            Except.error (boundOrderErr f)) ∧
    (∀ (f : String) (entries : List (String × JVal)),
        entries ≠ [] →
        (∀ k ∈ entries.map Prod.fst, k ∈ (["gt", "lt", "gte", "lte"] : List String)) →
        (∀ p ∈ entries, ∃ q : ℚ, p.2 = JVal.num q) →
        (entries.map Prod.fst).Nodup →
        ¬("lt" ∈ entries.map Prod.fst ∧ "lte" ∈ entries.map Prod.fst) →
        ¬("gt" ∈ entries.map Prod.fst ∧ "gte" ∈ entries.map Prod.fst) →
        (∀ hq lq, specResolvedHigh entries = some hq → specResolvedLow entries = some lq →
          lq < hq) →
        dslRange (JVal.obj [("range", JVal.obj [(f, JVal.obj entries)])]) =
          Except.ok (JVal.obj [("range", JVal.obj [(f, JVal.obj entries)])])) ∧
    (standardize 1 (JVal.obj [("range", JVal.obj [("age",
        JVal.obj [("gt", JVal.num 10), ("lt", JVal.num 5)])])]) =
      Except.error (boundOrderErr "age")) ∧
    (standardize 1 (JVal.obj [("range", JVal.obj [("age",
        JVal.obj [("gte", JVal.num 0), ("lte", JVal.num 120)])])]) =
      Except.ok (JVal.obj [("range", JVal.obj [("age",
        JVal.obj [("gte", JVal.num 0), ("lte", JVal.num 120)])])])) := by
  refine ⟨?_, ?_, ?_, ?_, ?_⟩
  · intro f entries hne hwl hnum hdup
    rw [dslRange_eq f entries hne hwl hnum]
    have hj := entries_jnum entries hnum
    rcases hdup with ⟨h1, h2⟩ | ⟨h1, h2⟩
    · obtain ⟨e, he, hset⟩ := rangeScan_two_upper f (JVal.obj entries)
        (entries.map Prod.fst) (none, none, none) (fun k hk _ => hj k hk) h1 h2
      refine ⟨e, ?_, hset⟩
      unfold rangeDecide
      rw [he]
    · obtain ⟨e, he, hset⟩ := rangeScan_two_lower f (JVal.obj entries)
        (entries.map Prod.fst) (none, none, none) (fun k hk _ => hj k hk) h1 h2
      refine ⟨e, ?_, hset⟩
      unfold rangeDecide
      rw [he]
  · intro f entries hne hwl hnum hnd hnotU hnotL hq lq hH hL hle
    rw [dslRange_clean f entries hne hwl hnum hnd hnotU hnotL, hH, hL]
    unfold rangeDecide
    dsimp only
    rw [if_pos hle]
  · intro f entries hne hwl hnum hnd hnotU hnotL hcond
    rw [dslRange_clean f entries hne hwl hnum hnd hnotU hnotL]
    rcases hH : specResolvedHigh entries with _ | hq
    · rfl
    · rcases hL : specResolvedLow entries with _ | lq
      · rfl
      · unfold rangeDecide
        dsimp only
        rw [if_neg (not_le.mpr (hcond hq lq hH hL))]
  · rfl
  · rfl

theorem C4_range_witness :
    (∃ e, dslRange (JVal.obj [("range", JVal.obj [("age",
          JVal.obj [("lt", JVal.num 1), ("lte", JVal.num 2)])])]) =
        Except.error e ∧ (e = upperBoundErr "age" ∨ e = lowerBoundErr "age")) ∧
    dslRange (JVal.obj [("range", JVal.obj [("age",
        JVal.obj [("gt", JVal.num 10), ("lt", JVal.num 5)])])]) =
      Except.error (boundOrderErr "age") ∧
    dslRange (JVal.obj [("range", JVal.obj [("age",
        JVal.obj [("gte", JVal.num 0), ("lte", JVal.num 120)])])]) =
      Except.ok (JVal.obj [("range", JVal.obj [("age",
        JVal.obj [("gte", JVal.num 0), ("lte", JVal.num 120)])])]) := by
  refine ⟨?_, ?_, ?_⟩
  · refine C4_range.1 "age" [("lt", JVal.num 1), ("lte", JVal.num 2)]
      (by simp) (by decide) ?_ (Or.inl ⟨by decide, by decide⟩)
    intro p hp
    rcases List.mem_cons.mp hp with h | hp2
    · exact ⟨1, by rw [h]⟩
    · rcases List.mem_cons.mp hp2 with h | hp3
      · exact ⟨2, by rw [h]⟩
      · exact absurd hp3 (List.not_mem_nil p)
  · refine C4_range.2.1 "age" [("gt", JVal.num 10), ("lt", JVal.num 5)]
      (by simp) (by decide) ?_ (by decide) (by decide) (by decide)
      5 10 rfl rfl (by norm_num)
    intro p hp
    rcases List.mem_cons.mp hp with h | hp2
    · exact ⟨10, by rw [h]⟩
    · rcases List.mem_cons.mp hp2 with h | hp3
      · exact ⟨5, by rw [h]⟩
      · exact absurd hp3 (List.not_mem_nil p)
  · refine C4_range.2.2.1 "age" [("gte", JVal.num 0), ("lte", JVal.num 120)]
      (by simp) (by decide) ?_ (by decide) (by decide) (by decide) ?_
    · intro p hp
      rcases List.mem_cons.mp hp with h | hp2
      · exact ⟨0, by rw [h]⟩
      · rcases List.mem_cons.mp hp2 with h | hp3
        · exact ⟨120, by rw [h]⟩
        · exact absurd hp3 (List.not_mem_nil p)
    · intro hq lq h1 h2
      have e1 : some (120 : ℚ) = some hq := h1
      have e2 : some (0 : ℚ) = some lq := h2
      rw [← Option.some.inj e1, ← Option.some.inj e2]
      norm_num



theorem C1_and_or_flattening_witness :
    ([existsFilter "a", existsFilter "b"] : List JVal) ≠ [] ∧
    findBadElem [existsFilter "a", existsFilter "b"] = .ok false ∧
    standardizeAll (standardize 1) [existsFilter "a", existsFilter "b"] =
      .ok [existsFilter "a", existsFilter "b"] ∧
    ∃ lv, okLeafVal lv = true ∧
      truthy lv = (([existsFilter "a", existsFilter "b"] : List JVal).foldl
        (specFlattenStep "and") ([], true)).2 ∧
      standardize 2 (.obj [("and", .arr [existsFilter "a", existsFilter "b"])]) =
        .ok (specAssemble "and" (([existsFilter "a", existsFilter "b"] : List JVal).foldl
          (specFlattenStep "and") ([], true)).1 lv) :=
  ⟨by simp, rfl, rfl,
    C1_and_or_flattening.1 1 "and" [existsFilter "a", existsFilter "b"]
      [existsFilter "a", existsFilter "b"] (Or.inl rfl) (by simp) rfl rfl⟩

theorem C3_dispatch_behavior_witness :
    jsKeysOf (JVal.obj []) = [] ∧
    standardize 1 (JVal.obj []) = .ok (.obj []) ∧
    jsKeysOf (JVal.obj [("a", .num 1), ("b", .num 2)]) = ["a", "b"] ∧
    standardize 1 (JVal.obj [("a", .num 1), ("b", .num 2)]) =
      .error (.badRequest "Invalid filter syntax") ∧
    jsKeysOf (JVal.obj [("frobnicate", .num 1)]) = ["frobnicate"] ∧
    dispatchable "frobnicate" = false ∧
    standardize 1 (JVal.obj [("frobnicate", .num 1)]) =
      .error (.badRequest ("Unknown DSL keyword: " ++ "frobnicate")) :=
  ⟨rfl, C3_dispatch_behavior.1 0 (JVal.obj []) rfl, rfl,
    C3_dispatch_behavior.2.1 0 (JVal.obj [("a", .num 1), ("b", .num 2)]) "a" "b" [] rfl,
    rfl, rfl,
    C3_dispatch_behavior.2.2 0 (JVal.obj [("frobnicate", .num 1)]) "frobnicate" rfl rfl⟩

theorem C5_ids_rewrite_witness :
    (["a", "b"] : List String) ≠ [] ∧
    standardize 1 (.obj [("ids", .obj [("values",
        .arr ((["a", "b"] : List String).map JVal.str))])]) =
      .ok (.obj [("or", .arr ((["a", "b"] : List String).map (fun v =>
              .obj [("equals", .obj [("_id", .str v)])]))),
            ("_isLeaf", .bool true)]) :=
  ⟨by simp, C5_ids_rewrite.1 0 ["a", "b"] (by simp)⟩

theorem C6_geoBoundingBox_flat_witness :
    (5 : ℚ) ≠ 0 ∧
    standardize 1 (.obj [("geoBoundingBox", .obj [("loc",
        .obj [("top", .num 5), ("left", .num 2),
              ("bottom", .num 3), ("right", .num 4)])])]) =
      .ok (.obj [("geospatial", .obj [("geoBoundingBox", .obj [("loc",
          .obj [("top", .num 5), ("left", .num 2),
                ("bottom", .num 3), ("right", .num 4)])])])]) :=
  ⟨by norm_num, C6_geoBoundingBox_flat.1 0 "loc" 5 2 3 4 (by norm_num)⟩

theorem C7_singleton_unwrap_witness :
    ([existsFilter "a"] : List JVal) ≠ [] ∧
    findBadElem [existsFilter "a"] = .ok false ∧
    standardizeAll (standardize 1) [existsFilter "a"] = .ok [existsFilter "a"] ∧
    (([existsFilter "a"] : List JVal).foldl (sfaFoldStep "and") ([], .bool true)).1 =
      [existsFilter "a"] ∧
    standardize 2 (.obj [("and", .arr [existsFilter "a"])]) = .ok (existsFilter "a") :=
  ⟨by simp, rfl, rfl, rfl,
    C7_singleton_unwrap.1 1 "and" [existsFilter "a"] [existsFilter "a"]
      (existsFilter "a") (Or.inl rfl) (by simp) rfl rfl rfl⟩

theorem C8_error_propagation_witness :
    (findBadElem ([] ++ JVal.obj [("and", .num 5)] :: []) = .ok false ∧
     standardizeAll (standardize 1) [] = .ok [] ∧
     standardize 1 (JVal.obj [("and", .num 5)]) =
       .error (.badRequest "Attribute \"and\" in \"and\" must be an array") ∧
     standardize 2 (.obj [("and", .arr ([] ++ JVal.obj [("and", .num 5)] :: []))]) =
       .error (.badRequest "Attribute \"and\" in \"and\" must be an array")) ∧
    (mustBeNonEmptyObject (JVal.obj [("frobnicate", .obj [("x", .num 1)])]) "not" =
       .ok ["frobnicate"] ∧
     onlyOneFieldAttribute ["frobnicate"] "not" = .ok ["frobnicate"] ∧
     notPrecheck (.obj [("not", JVal.obj [("frobnicate", .obj [("x", .num 1)])])])
       (["frobnicate"].headD "") = .ok () ∧
     standardize 1 (JVal.obj [("frobnicate", .obj [("x", .num 1)])]) =
       .error (.badRequest ("Unknown DSL keyword: " ++ "frobnicate")) ∧
     standardize 2 (.obj [("not", JVal.obj [("frobnicate", .obj [("x", .num 1)])])]) =
       .error (.badRequest ("Unknown DSL keyword: " ++ "frobnicate"))) ∧
    (mustBeNonEmptyObject (JVal.obj [("must", .num 5)]) "bool" = .ok ["must"] ∧
     (["must"].any (fun x => !(boolAttributes.contains x))) = false ∧
     truthy (jlookup (JVal.obj [("must", .num 5)]) "must") = true ∧
     dslAnd (standardize 1) (.obj [("and", jlookup (JVal.obj [("must", .num 5)]) "must")]) =
       .error (.badRequest "Attribute \"and\" in \"and\" must be an array") ∧
     standardize 2 (.obj [("bool", JVal.obj [("must", .num 5)])]) =
       .error (.badRequest "Attribute \"and\" in \"and\" must be an array")) :=
  ⟨⟨rfl, rfl, rfl,
    C8_error_propagation.1 1 "and" [] (JVal.obj [("and", .num 5)]) [] []
      (.badRequest "Attribute \"and\" in \"and\" must be an array")
      (Or.inl rfl) rfl rfl rfl⟩,
   ⟨rfl, rfl, rfl, rfl,
    C8_error_propagation.2.1 1 (JVal.obj [("frobnicate", .obj [("x", .num 1)])])
      ["frobnicate"] (.badRequest ("Unknown DSL keyword: " ++ "frobnicate"))
      rfl rfl rfl rfl⟩,
   ⟨rfl, rfl, rfl, rfl,
    C8_error_propagation.2.2 1 (JVal.obj [("must", .num 5)]) ["must"]
      (.badRequest "Attribute \"and\" in \"and\" must be an array")
      rfl rfl rfl rfl⟩⟩


end Kuzzle
